import Mathlib

/-!
Verification development for the `cv_rating_app` repository.

The Python sources are shallowly embedded as executable Lean definitions:

* `Json` models the values produced by `json.loads` (Python scalars,
  lists and dicts); a dict is an association list with unique keys,
  looked up by first match.
* Scores are Python floats used only for copying, parsing and equality
  comparison (never arithmetic), so they are modelled exactly as `Rat`.
* pydantic-v2 model construction (`JudgeRating(**kwargs)` etc.) is
  modelled by explicit field validators in lax mode: str fields accept
  only strings, float fields accept ints, floats and numeric strings
  (not bools), extra keyword arguments are ignored (the v2 default
  `extra="ignore"`), and `Optional` fields default to `None`.
* The external generation service is an oracle parameter: each judge
  batch attempt receives either a failure or a parsed JSON reply.
* Thread pools (`ThreadPoolExecutor` fan-out/fan-in) are modelled
  sequentially; all proved properties are completion-order independent.
-/

/-- A parsed JSON value as produced by Python `json.loads`: `null`, `bool`,
`int`, `float`, `str`, list, or dict (association list, unique keys). -/
inductive Json where
  | null : Json
  | bool : Bool → Json
  | intNum : Int → Json
  | floatNum : Rat → Json
  | str : String → Json
  | arr : List Json → Json
  | obj : List (String × Json) → Json

/-- A Python dict holding parsed JSON values. -/
abbrev Dict : Type := List (String × Json)

/-- `d.get(k)`: `none` models both an absent key and is distinguished from
an explicit JSON `null` (`some Json.null`). -/
def dictGet (d : Dict) (k : String) : Option Json :=
  (List.find? (fun p => p.1 == k) d).map (fun p => p.2)

/-- `k in d`. -/
def dictHas (d : Dict) (k : String) : Bool :=
  List.any d (fun p => p.1 == k)

/-- `d.pop(k, None)`: the dict with key `k` removed. -/
def dictPop (d : Dict) (k : String) : Dict :=
  List.filter (fun p => !(p.1 == k)) d

/-- `d[k] = v`: replace in place if the key exists, else append. -/
def dictSet (d : Dict) (k : String) (v : Json) : Dict :=
  if dictHas d k then List.map (fun p => if p.1 == k then (k, v) else p) d
  else d ++ [(k, v)]

/-- Digits of a natural number string, `none` if empty or non-digit. -/
def parseNatDigits (cs : List Char) : Option Nat :=
  if cs.isEmpty then none
  else if cs.all Char.isDigit then
    some (cs.foldl (fun acc c => acc * 10 + (c.toNat - 48)) 0)
  else none

/-- Strip leading and trailing whitespace (Python `str.strip()`),
implemented on the char list so that it reduces in the kernel. -/
def trimChars (cs : List Char) : List Char :=
  ((cs.dropWhile Char.isWhitespace).reverse.dropWhile Char.isWhitespace).reverse

/-- Python `int(s)` on a stripped string: optional sign then digits
(exotic forms such as underscores are out of scope; no claim uses them). -/
def parseIntString (s : String) : Option Int :=
  let cs := trimChars s.toList
  match cs with
  | '-' :: rest => (parseNatDigits rest).map (fun n => -(n : Int))
  | '+' :: rest => (parseNatDigits rest).map (fun n => (n : Int))
  | _ => (parseNatDigits cs).map (fun n => (n : Int))

/-- Decimal body `digits[.digits]` (also `.digits` / `digits.`) as a `Rat`. -/
def parseDecimalBody (cs : List Char) : Option Rat :=
  match cs.splitOn '.' with
  | [ip] => (parseNatDigits ip).map (fun n => (n : Rat))
  | [ip, fp] =>
    if ip.isEmpty ∧ fp.isEmpty then none
    else if (ip.all Char.isDigit) ∧ (fp.all Char.isDigit) then
      let ipn := (ip.foldl (fun acc c => acc * 10 + (c.toNat - 48)) 0 : Nat)
      let fpn := (fp.foldl (fun acc c => acc * 10 + (c.toNat - 48)) 0 : Nat)
      some (mkRat (ipn * 10 ^ fp.length + fpn) (10 ^ fp.length))
    else none
  | _ => none

/-- Python `float(s)`: strip whitespace, optional sign, decimal literal.
(Exponents, `inf` and `nan` are out of scope; no claim uses them.) -/
def parseFloatString (s : String) : Option Rat :=
  let cs := trimChars s.toList
  match cs with
  | '-' :: rest => (parseDecimalBody rest).map (fun q => -q)
  | '+' :: rest => parseDecimalBody rest
  | _ => parseDecimalBody cs

/-- Python `float(x)` on a parsed JSON value: numbers pass through, bools
become `0.0`/`1.0`, numeric strings are parsed; everything else raises
(`none`). -/
def pyFloat (v : Json) : Option Rat :=
  match v with
  | Json.intNum n => some (n : Rat)
  | Json.floatNum q => some q
  | Json.bool b => some (if b then 1 else 0)
  | Json.str s => parseFloatString s
  | _ => none

/-- Render the fractional digits of `num/den` (`num < den`) by long
division, most significant first, up to `fuel` digits (Python float
repr is shortest round-trip; this exact rendering agrees on all claim
inputs). -/
def fracDigits (fuel : Nat) (num den : Nat) : List Char :=
  match fuel with
  | 0 => []
  | Nat.succ n =>
    if num = 0 then []
    else Char.ofNat (48 + num * 10 / den) :: fracDigits n (num * 10 % den) den

/-- Python `str(x)` for a float value. -/
def floatRepr (q : Rat) : String :=
  let sign := if q.num < 0 then "-" else ""
  let na := q.num.natAbs
  let frs := fracDigits 17 (na % q.den) q.den
  sign ++ toString (na / q.den) ++ "." ++
    (if frs.isEmpty then "0" else String.mk frs)

/-- Python `str(x)` on a parsed JSON value (containers rendered
approximately; every claim only applies `str` to scalars). -/
def pyStr (v : Json) : String :=
  match v with
  | Json.null => "None"
  | Json.bool b => if b then "True" else "False"
  | Json.intNum n => toString n
  | Json.floatNum q => floatRepr q
  | Json.str s => s
  | Json.arr _ => "[...]"
  | Json.obj _ => "\x7b...\x7d"

/-- Python truthiness of a parsed JSON value (`if data.get('uf'):`). -/
def pyTruthy (v : Option Json) : Bool :=
  match v with
  | none => false
  | some Json.null => false
  | some (Json.bool b) => b
  | some (Json.intNum n) => ¬ n == 0
  | some (Json.floatNum q) => ¬ q == 0
  | some (Json.str s) => ¬ s.isEmpty
  | some (Json.arr xs) => ¬ xs.isEmpty
  | some (Json.obj kvs) => ¬ kvs.isEmpty

/-! ## The pydantic models of `models.py`

`CandidateInfo` is reproduced exactly as declared in `models.py`: note
that it has **no** `uf` or `city` field, although `agent_extraction.py`
normalizes both keys, `agent_rating.py` reads `candidate.uf` /
`candidate.city`, and `tests/test_combiner.py` constructs it with both. -/

structure CandidateInfo where
  candidate_id : String
  file : String
  name : String
  email : String
  phone : Option String := none
  languages : List String := []
  programming_languages : List String := []
  frameworks : List String := []
  years_experience : Option Int := none
  education : Option String := none
  summary : Option String := none
deriving DecidableEq, Repr

structure CandidateRating where
  candidate_id : String
  file : String
  score : Rat
  strengths : Option String := none
  weaknesses : Option String := none
  rationale : Option String := none
deriving DecidableEq, Repr

structure JudgeRating where
  candidate_id : String
  file : String
  score : Rat
  strengths : Option String := none
  weaknesses : Option String := none
  rationale : Option String := none
  initial_score : Option Rat := none
  score_adjustment : Option String := none
deriving DecidableEq, Repr

/-! ## pydantic-v2 lax-mode field validators -/

/-- A required `str` field: only strings are accepted. -/
def vStr (v : Option Json) : Except String String :=
  match v with
  | some (Json.str s) => Except.ok s
  | _ => Except.error "string required"

/-- An `Optional[str] = None` field: missing or `null` gives `none`. -/
def vOptStr (v : Option Json) : Except String (Option String) :=
  match v with
  | none => Except.ok none
  | some Json.null => Except.ok none
  | some (Json.str s) => Except.ok (some s)
  | _ => Except.error "string or null required"

/-- A required `float` field: ints, floats and numeric strings are
accepted (pydantic v2 rejects bools for numeric fields). -/
def vFloat (v : Option Json) : Except String Rat :=
  match v with
  | some (Json.intNum n) => Except.ok (n : Rat)
  | some (Json.floatNum q) => Except.ok q
  | some (Json.str s) =>
    match parseFloatString s with
    | some q => Except.ok q
    | none => Except.error "float parse failure"
  | _ => Except.error "float required"

/-- An `Optional[float] = None` field. -/
def vOptFloat (v : Option Json) : Except String (Option Rat) :=
  match v with
  | none => Except.ok none
  | some Json.null => Except.ok none
  | some w => (vFloat (some w)).map some

/-- An `Optional[int] = None` field: ints, integral floats, and integer
strings are accepted. -/
def vOptInt (v : Option Json) : Except String (Option Int) :=
  match v with
  | none => Except.ok none
  | some Json.null => Except.ok none
  | some (Json.intNum n) => Except.ok (some n)
  | some (Json.floatNum q) =>
    if q.den = 1 then Except.ok (some q.num) else Except.error "int required"
  | some (Json.str s) =>
    match parseIntString s with
    | some n => Except.ok (some n)
    | none => Except.error "int parse failure"
  | _ => Except.error "int or null required"

/-- A `List[str] = Field(default_factory=list)` field: a list whose
elements are all strings; a missing key gives the default `[]`. -/
def vListStr (v : Option Json) : Except String (List String) :=
  match v with
  | none => Except.ok []
  | some (Json.arr xs) =>
    List.foldr
      (fun x acc =>
        match x, acc with
        | Json.str s, Except.ok ss => Except.ok (s :: ss)
        | _, Except.ok _ => Except.error "list of strings required"
        | _, Except.error e => Except.error e)
      (Except.ok []) xs
  | _ => Except.error "list required"

/-- `JudgeRating(candidate_id=..., file=..., **kwargs)` under pydantic v2:
extra keys are ignored, optional fields default to `None`. -/
def mkJudgeRating (cid file : String) (kwargs : Dict) : Except String JudgeRating := do
  let score ← vFloat (dictGet kwargs "score")
  let strengths ← vOptStr (dictGet kwargs "strengths")
  let weaknesses ← vOptStr (dictGet kwargs "weaknesses")
  let rationale ← vOptStr (dictGet kwargs "rationale")
  let initial_score ← vOptFloat (dictGet kwargs "initial_score")
  let score_adjustment ← vOptStr (dictGet kwargs "score_adjustment")
  Except.ok { candidate_id := cid, file := file, score := score,
              strengths := strengths, weaknesses := weaknesses,
              rationale := rationale, initial_score := initial_score,
              score_adjustment := score_adjustment }

/-- `CandidateRating(candidate_id=..., file=..., **kwargs)` under pydantic v2. -/
def mkCandidateRating (cid file : String) (kwargs : Dict) : Except String CandidateRating := do
  let score ← vFloat (dictGet kwargs "score")
  let strengths ← vOptStr (dictGet kwargs "strengths")
  let weaknesses ← vOptStr (dictGet kwargs "weaknesses")
  let rationale ← vOptStr (dictGet kwargs "rationale")
  Except.ok { candidate_id := cid, file := file, score := score,
              strengths := strengths, weaknesses := weaknesses,
              rationale := rationale }

/-- `CandidateInfo(candidate_id=..., file=..., **kwargs)` under pydantic v2.
`uf` and `city` keys in `kwargs`, when present, are extra keys and are
silently ignored (`models.py` declares no such fields). -/
def mkCandidateInfo (cid file : String) (kwargs : Dict) : Except String CandidateInfo := do
  let name ← vStr (dictGet kwargs "name")
  let email ← vStr (dictGet kwargs "email")
  let phone ← vOptStr (dictGet kwargs "phone")
  let languages ← vListStr (dictGet kwargs "languages")
  let programming_languages ← vListStr (dictGet kwargs "programming_languages")
  let frameworks ← vListStr (dictGet kwargs "frameworks")
  let years_experience ← vOptInt (dictGet kwargs "years_experience")
  let education ← vOptStr (dictGet kwargs "education")
  let summary ← vOptStr (dictGet kwargs "summary")
  Except.ok { candidate_id := cid, file := file, name := name, email := email,
              phone := phone, languages := languages,
              programming_languages := programming_languages,
              frameworks := frameworks, years_experience := years_experience,
              education := education, summary := summary }

/-! ## The judge stage (`agent_judge.py`)

`JudgeAgent._judge_batch` and `JudgeAgent.judge_all`.  The external
service is an oracle: each attempt of a batch receives a
`BatchOutcome` (a failure — service error, `None` content or invalid
JSON — or a parsed JSON reply).  `judge_all` processes batches through
a thread pool and extends the shared list in completion order; it is
modelled sequentially, with one `List BatchOutcome` (successive
attempts) per batch. -/

/-- One attempt's interaction with the external service. -/
inductive BatchOutcome where
  | failure : BatchOutcome
  | reply : Json → BatchOutcome

/-- The fallback `JudgeRating` built throughout `agent_judge.py`: a copy
of the original rating, `initial_score` = original score, plus a note. -/
def fallbackJR (c : CandidateInfo) (r : CandidateRating) (note : String) : JudgeRating :=
  { candidate_id := c.candidate_id, file := c.file, score := r.score,
    strengths := r.strengths, weaknesses := r.weaknesses,
    rationale := r.rationale, initial_score := some r.score,
    score_adjustment := some note }

/-- One fallback per `zip(candidates, ratings)` pair. -/
def fallbackBatch (cands : List CandidateInfo) (rats : List CandidateRating)
    (note : String) : List JudgeRating :=
  List.map (fun p => fallbackJR p.1 p.2 note) (cands.zip rats)

/-- `if isinstance(rating_data.get(k), list): rating_data[k] = ', '.join(str(item) ...)`. -/
def joinListField (d : Dict) (k : String) : Dict :=
  match dictGet d k with
  | some (Json.arr xs) =>
    dictSet d k (Json.str (String.intercalate ", " (List.map pyStr xs)))
  | _ => d

/-- Processing of one returned rating object for one candidate: copy,
pop `file`, join list-valued `strengths`/`weaknesses`, then
`JudgeRating(candidate_id=..., file=..., **rating_data)`.  A non-dict
element, a `candidate_id` key (duplicate keyword argument) or a pydantic
validation failure raises, i.e. yields `Except.error`. -/
def processElem (c : CandidateInfo) (elem : Json) : Except String JudgeRating :=
  match elem with
  | Json.obj kvs =>
    let rd := dictPop kvs "file"
    let rd := joinListField rd "strengths"
    let rd := joinListField rd "weaknesses"
    if dictHas rd "candidate_id" then Except.error "duplicate keyword argument"
    else mkJudgeRating c.candidate_id c.file rd
  | _ => Except.error "rating entry is not a dict"

/-- Is this JSON value a list? -/
def isList (v : Json) : Bool :=
  match v with
  | Json.arr _ => true
  | _ => false

/-- Does this JSON value look like a non-empty list of rating dicts
(first element a dict containing `"file"`)? -/
def looksLikeRatings (v : Json) : Bool :=
  match v with
  | Json.arr (Json.obj kvs :: _) => dictHas kvs "file"
  | _ => false

/-- Response-shape recovery: a bare array; or a dict with a list under
`"ratings"`; or a dict that itself has `file` and `score` keys (a single
rating, wrapped); or, if any dict value is a list, the first value that
looks like a list of ratings; anything else is an error. -/
def extractRatingsArray (parsed : Json) : Except String (List Json) :=
  match parsed with
  | Json.arr xs => Except.ok xs
  | Json.obj kvs =>
    match dictGet kvs "ratings" with
    | some (Json.arr xs) => Except.ok xs
    | _ =>
      if dictHas kvs "file" ∧ dictHas kvs "score" then Except.ok [Json.obj kvs]
      else if List.any kvs (fun p => isList p.2) then
        match List.find? (fun p => looksLikeRatings p.2) kvs with
        | some (_, Json.arr xs) => Except.ok xs
        | _ => Except.error "no list of ratings found in dict"
      else Except.error "unrecognized dict shape"
  | _ => Except.error "expected array or dict"

/-- The positional walk shared by the two loops of `_judge_batch`: the
`i`-th pair of `zip(candidates, ratings)` takes `ratings_array[i]` when
it exists, and a synthesized fallback otherwise; extra array elements
are ignored; the first per-element failure aborts the whole attempt. -/
def processPairs : List (CandidateInfo × CandidateRating) → List Json →
    Except String (List JudgeRating)
  | [], _ => Except.ok []
  | p :: rest, [] => do
    let jrs ← processPairs rest []
    Except.ok (fallbackJR p.1 p.2
      "No adjustment - using original rating due to missing LLM response" :: jrs)
  | p :: rest, elem :: elems => do
    let jr ← processElem p.1 elem
    let jrs ← processPairs rest elems
    Except.ok (jr :: jrs)

/-- One attempt of `_judge_batch`: classify the reply, handle the empty
array with a full-batch parse-error fallback, otherwise walk the array
positionally.  (The Python code writes the count-mismatch and the
equal-count loop separately; both are the same positional walk over
`zip(candidates, ratings)`, fused here into `processPairs`.) -/
def judgeAttempt (cands : List CandidateInfo) (rats : List CandidateRating)
    (out : BatchOutcome) : Except String (List JudgeRating) :=
  match out with
  | BatchOutcome.failure => Except.error "service error or invalid JSON"
  | BatchOutcome.reply parsed => do
    let ratings_array ← extractRatingsArray parsed
    if ratings_array.isEmpty then
      Except.ok (fallbackBatch cands rats
        "No adjustment - using original rating due to parsing error")
    else
      processPairs (cands.zip rats) ratings_array

/-- The retry loop of `_judge_batch` (`for attempt in range(max_retries)`
with `time.sleep(2 ** attempt)` between attempts — the backoff delay has
no observable effect on the result and is not modelled).  The fuel is
the number of remaining attempts; exhausting it on a failure produces
the full-batch fallback. -/
def judgeBatchGo (cands : List CandidateInfo) (rats : List CandidateRating) :
    List BatchOutcome → Nat → List JudgeRating
  | _, 0 =>
    fallbackBatch cands rats
      "No adjustment - using original rating due to unexpected error"
  | outs, Nat.succ n =>
    match judgeAttempt cands rats (outs.headD BatchOutcome.failure) with
    | Except.ok jrs => jrs
    | Except.error _ =>
      if n = 0 then
        fallbackBatch cands rats
          "No adjustment - using original rating due to LLM failure after 3 attempts"
      else judgeBatchGo cands rats outs.tail n

/-- `_judge_batch` with `max_retries = 3`. -/
def judgeBatch (cands : List CandidateInfo) (rats : List CandidateRating)
    (outs : List BatchOutcome) : List JudgeRating :=
  judgeBatchGo cands rats outs 3

/-- The batching loop of `judge_all` fused with the result collection:
`candidates[i:i+batch_size]` and `ratings[i:i+batch_size]` are judged
per batch and the results concatenated (sequential model of the pool).
The first argument is structural-recursion fuel, instantiated with
`cands.length` by `judgeAllPre`, which always suffices. -/
def judgeAllPreGo : Nat → List CandidateInfo → List CandidateRating → Nat →
    List (List BatchOutcome) → List JudgeRating
  | 0, _, _, _, _ => []
  | Nat.succ _, _, _, 0, _ => []
  | Nat.succ _, [], _, Nat.succ _, _ => []
  | Nat.succ fuel, c :: cs, rats, Nat.succ bs, outss =>
    judgeBatch (List.take (Nat.succ bs) (c :: cs)) (List.take (Nat.succ bs) rats)
        (outss.headD []) ++
      judgeAllPreGo fuel (List.drop bs cs) (List.drop (Nat.succ bs) rats)
        (Nat.succ bs) (outss.tail)

/-- The batch partitioning and collection phase of `judge_all`. -/
def judgeAllPre (cands : List CandidateInfo) (rats : List CandidateRating)
    (bs : Nat) (outss : List (List BatchOutcome)) : List JudgeRating :=
  judgeAllPreGo cands.length cands rats bs outss

/-- The global reconciliation of `judge_all`: when the collected count
differs from the candidate count, synthesize a fallback for every
`zip(candidates, ratings)` pair whose **file** is not among the files of
the collected judge ratings. -/
def globalFallbacks (cands : List CandidateInfo) (rats : List CandidateRating)
    (collected : List JudgeRating) : List JudgeRating :=
  if collected.length ≠ cands.length then
    List.map
      (fun p => fallbackJR p.1 p.2
        "No adjustment - using original rating due to missing judge rating")
      (List.filter
        (fun p => ¬ (List.map (fun jr => jr.file) collected).contains p.1.file)
        (cands.zip rats))
  else []

/-- `JudgeAgent.judge_all`: judge every batch, then reconcile globally.
(The `fut.result()` exception handler of the Python code is dead in this
model because `judgeBatch` is total; service misbehaviour is entirely
carried by the `BatchOutcome` oracle.) -/
def judge_all (cands : List CandidateInfo) (rats : List CandidateRating)
    (bs : Nat) (outss : List (List BatchOutcome)) : List JudgeRating :=
  let collected := judgeAllPre cands rats bs outss
  collected ++ globalFallbacks cands rats collected

/-! ## Judge-stage lemmas -/

/-- Default values used only to state positional properties via `List.getD`. -/
def dummyCand : CandidateInfo :=
  { candidate_id := "", file := "", name := "", email := "" }

def dummyRat : CandidateRating := { candidate_id := "", file := "", score := 0 }

def dummyJR : JudgeRating := { candidate_id := "", file := "", score := 0 }

/-- What `_judge_batch` guarantees for the judge rating of one
`(candidate, rating)` pair: identity fields come from the candidate, and
the rating either is a fallback carrying the original score as both
`score` and `initial_score`, or is the processed form of some object
returned by the service. -/
def JROkP (p : CandidateInfo × CandidateRating) (jr : JudgeRating) : Prop :=
  jr.candidate_id = p.1.candidate_id ∧ jr.file = p.1.file ∧
    ((jr.initial_score = some p.2.score ∧ jr.score = p.2.score) ∨
      ∃ elem, processElem p.1 elem = Except.ok jr)

theorem jrokp_fallback (p : CandidateInfo × CandidateRating) (note : String) :
    JROkP p (fallbackJR p.1 p.2 note) :=
  ⟨rfl, rfl, Or.inl ⟨rfl, rfl⟩⟩

theorem fallbackBatch_forall (cands : List CandidateInfo)
    (rats : List CandidateRating) (note : String) :
    List.Forall₂ JROkP (cands.zip rats) (fallbackBatch cands rats note) := by
  unfold fallbackBatch
  rw [List.forall₂_map_right_iff]
  exact List.forall₂_same.mpr (fun p _ => jrokp_fallback p note)

theorem mkJudgeRating_ids (cid file : String) (kwargs : Dict) (jr : JudgeRating)
    (h : mkJudgeRating cid file kwargs = Except.ok jr) :
    jr.candidate_id = cid ∧ jr.file = file := by
  unfold mkJudgeRating at h
  simp only [Bind.bind, Except.bind] at h
  cases h1 : vFloat (dictGet kwargs "score") <;> rw [h1] at h
  · cases h
  cases h2 : vOptStr (dictGet kwargs "strengths") <;> rw [h2] at h
  · cases h
  cases h3 : vOptStr (dictGet kwargs "weaknesses") <;> rw [h3] at h
  · cases h
  cases h4 : vOptStr (dictGet kwargs "rationale") <;> rw [h4] at h
  · cases h
  cases h5 : vOptFloat (dictGet kwargs "initial_score") <;> rw [h5] at h
  · cases h
  cases h6 : vOptStr (dictGet kwargs "score_adjustment") <;> rw [h6] at h
  · cases h
  cases h
  exact ⟨rfl, rfl⟩

theorem processElem_ids (c : CandidateInfo) (elem : Json) (jr : JudgeRating)
    (h : processElem c elem = Except.ok jr) :
    jr.candidate_id = c.candidate_id ∧ jr.file = c.file := by
  unfold processElem at h
  split at h
  · dsimp only at h
    split at h
    · cases h
    · exact mkJudgeRating_ids _ _ _ _ h
  · cases h

theorem processPairs_forall :
    ∀ (pairs : List (CandidateInfo × CandidateRating)) (elems : List Json)
      (jrs : List JudgeRating), processPairs pairs elems = Except.ok jrs →
      List.Forall₂ JROkP pairs jrs := by
  intro pairs
  induction pairs with
  | nil =>
    intro elems jrs h
    simp only [processPairs] at h
    cases h
    exact List.Forall₂.nil
  | cons p rest ih =>
    intro elems jrs h
    cases elems with
    | nil =>
      simp only [processPairs, Bind.bind, Except.bind] at h
      cases hrec : processPairs rest [] <;> rw [hrec] at h
      · cases h
      cases h
      exact List.Forall₂.cons (jrokp_fallback p _) (ih [] _ hrec)
    | cons elem elems =>
      simp only [processPairs, Bind.bind, Except.bind] at h
      cases helem : processElem p.1 elem <;> rw [helem] at h
      · cases h
      cases hrec : processPairs rest elems <;> rw [hrec] at h
      · cases h
      cases h
      refine List.Forall₂.cons ?_ (ih elems _ hrec)
      obtain ⟨hid, hfile⟩ := processElem_ids p.1 elem _ helem
      exact ⟨hid, hfile, Or.inr ⟨elem, helem⟩⟩

theorem judgeAttempt_forall (cands : List CandidateInfo)
    (rats : List CandidateRating) (out : BatchOutcome) (jrs : List JudgeRating)
    (h : judgeAttempt cands rats out = Except.ok jrs) :
    List.Forall₂ JROkP (cands.zip rats) jrs := by
  cases out with
  | failure => cases h
  | reply parsed =>
    simp only [judgeAttempt, Bind.bind, Except.bind] at h
    split at h
    · cases h
    · split at h
      · cases h
        exact fallbackBatch_forall cands rats _
      · exact processPairs_forall _ _ _ h

theorem judgeBatchGo_forall (cands : List CandidateInfo)
    (rats : List CandidateRating) :
    ∀ (outs : List BatchOutcome) (n : Nat),
      List.Forall₂ JROkP (cands.zip rats) (judgeBatchGo cands rats outs n) := by
  intro outs n
  induction n generalizing outs with
  | zero => exact fallbackBatch_forall cands rats _
  | succ n ih =>
    simp only [judgeBatchGo]
    split
    next jrs heq => exact judgeAttempt_forall cands rats _ jrs heq
    next e heq =>
      split
      · exact fallbackBatch_forall cands rats _
      · exact ih outs.tail

theorem judgeBatch_forall (cands : List CandidateInfo)
    (rats : List CandidateRating) (outs : List BatchOutcome) :
    List.Forall₂ JROkP (cands.zip rats) (judgeBatch cands rats outs) :=
  judgeBatchGo_forall cands rats outs 3

/-- Splitting a zip at an index. -/
theorem zip_take_drop {α β : Type} :
    ∀ (n : Nat) (l1 : List α) (l2 : List β),
      l1.zip l2 = (l1.take n).zip (l2.take n) ++ (l1.drop n).zip (l2.drop n) := by
  intro n
  induction n with
  | zero => intro l1 l2; simp
  | succ n ih =>
    intro l1 l2
    cases l1 with
    | nil => simp
    | cons a l1 =>
      cases l2 with
      | nil => simp
      | cons b l2 => simp [List.zip_cons_cons, ih l1 l2]

theorem judgeAllPreGo_forall :
    ∀ (fuel : Nat) (cands : List CandidateInfo) (rats : List CandidateRating)
      (bs : Nat) (outss : List (List BatchOutcome)), cands.length ≤ fuel →
      0 < bs →
      List.Forall₂ JROkP (cands.zip rats)
        (judgeAllPreGo fuel cands rats bs outss) := by
  intro fuel
  induction fuel with
  | zero =>
    intro cands rats bs outss hf _
    have hc : cands = [] := List.length_eq_zero.mp (Nat.le_zero.mp hf)
    subst hc
    exact List.Forall₂.nil
  | succ fuel ih =>
    intro cands rats bs outss hf hbs
    cases bs with
    | zero => exact absurd hbs (by omega)
    | succ bs =>
      cases cands with
      | nil => exact List.Forall₂.nil
      | cons c cs =>
        simp only [judgeAllPreGo]
        rw [zip_take_drop (Nat.succ bs) (c :: cs) rats, List.drop_succ_cons]
        refine List.rel_append (judgeBatch_forall _ _ _) (ih _ _ _ _ ?_ hbs)
        simp only [List.length_drop]
        simp only [List.length_cons] at hf
        omega

theorem judgeAllPre_forall :
    ∀ (cands : List CandidateInfo) (rats : List CandidateRating) (bs : Nat)
      (outss : List (List BatchOutcome)), 0 < bs →
      List.Forall₂ JROkP (cands.zip rats) (judgeAllPre cands rats bs outss) :=
  fun cands rats bs outss hbs =>
    judgeAllPreGo_forall cands.length cands rats bs outss (Nat.le_refl _) hbs

theorem judgeAllPre_length (cands : List CandidateInfo)
    (rats : List CandidateRating) (bs : Nat) (outss : List (List BatchOutcome))
    (hbs : 0 < bs) :
    (judgeAllPre cands rats bs outss).length = min cands.length rats.length := by
  have h := (judgeAllPre_forall cands rats bs outss hbs).length_eq
  simpa [List.length_zip] using h.symm

/-- From a `Forall₂`, each left element has a related right element. -/
theorem forall₂_exists_right {α β : Type} {R : α → β → Prop} :
    ∀ {l1 : List α} {l2 : List β}, List.Forall₂ R l1 l2 →
      ∀ a ∈ l1, ∃ b ∈ l2, R a b := by
  intro l1 l2 h
  induction h with
  | nil => intro a ha; cases ha
  | cons hr _ ih =>
    intro a ha
    cases ha with
    | head => exact ⟨_, List.mem_cons_self _ _, hr⟩
    | tail _ hmem =>
      obtain ⟨b, hb, hrb⟩ := ih a hmem
      exact ⟨b, List.mem_cons_of_mem _ hb, hrb⟩

/-- The global reconciliation of `judge_all` never synthesizes anything:
every pair walked by its loop already has a collected judge rating
bearing the same file. -/
theorem globalFallbacks_nil (cands : List CandidateInfo)
    (rats : List CandidateRating) (bs : Nat) (outss : List (List BatchOutcome))
    (hbs : 0 < bs) :
    globalFallbacks cands rats (judgeAllPre cands rats bs outss) = [] := by
  unfold globalFallbacks
  split
  · rw [List.filter_eq_nil_iff.mpr, List.map_nil]
    intro p hp
    obtain ⟨jr, hjr, hrel⟩ :=
      forall₂_exists_right (judgeAllPre_forall cands rats bs outss hbs) p hp
    simp only [decide_eq_true_eq, Decidable.not_not]
    have : p.1.file ∈ List.map (fun jr => jr.file)
        (judgeAllPre cands rats bs outss) :=
      List.mem_map.mpr ⟨jr, hjr, hrel.2.1⟩
    exact List.elem_eq_true_of_mem this
  · rfl

theorem judge_all_eq_pre (cands : List CandidateInfo)
    (rats : List CandidateRating) (bs : Nat) (outss : List (List BatchOutcome))
    (hbs : 0 < bs) :
    judge_all cands rats bs outss = judgeAllPre cands rats bs outss := by
  simp only [judge_all]
  rw [globalFallbacks_nil cands rats bs outss hbs, List.append_nil]

/-! ## Dict lookup lemmas -/

theorem dictGet_cons (p : String × Json) (rest : Dict) (k2 : String) :
    dictGet (p :: rest) k2 = if p.1 == k2 then some p.2 else dictGet rest k2 := by
  simp only [dictGet, List.find?]
  by_cases h : p.1 == k2 <;> simp [h]

theorem dictGet_none_of_not_has (d : Dict) (k : String)
    (h : dictHas d k = false) : dictGet d k = none := by
  induction d with
  | nil => rfl
  | cons p rest ih =>
    simp only [dictHas, List.any_cons, Bool.or_eq_false_iff] at h
    rw [dictGet_cons, h.1, if_neg (by simp)]
    exact ih (by simp [dictHas, h.2])

theorem dictGet_pop_ne (d : Dict) (k k2 : String) (h : k2 ≠ k) :
    dictGet (dictPop d k) k2 = dictGet d k2 := by
  induction d with
  | nil => rfl
  | cons p rest ih =>
    simp only [dictPop, List.filter_cons] at ih ⊢
    by_cases hk : p.1 = k
    · have hbk2 : (p.1 == k2) = false :=
        beq_eq_false_iff_ne.mpr (fun he => h (he ▸ hk))
      simp [hk, dictGet_cons, hbk2, ih]
      exact (if_neg (fun he => h he.symm)).symm
    · simp [beq_eq_false_iff_ne.mpr hk, dictGet_cons, ih]

theorem dictGet_map_replace (d : Dict) (k : String) (v : Json) (k2 : String)
    (h : k2 ≠ k) :
    dictGet (List.map (fun p => if p.1 == k then (k, v) else p) d) k2 =
      dictGet d k2 := by
  induction d with
  | nil => rfl
  | cons p rest ih =>
    rw [List.map_cons]
    by_cases hk : p.1 = k
    · have hb : (p.1 == k) = true := beq_iff_eq.mpr hk
      rw [if_pos (by simp [hb]), dictGet_cons, dictGet_cons]
      have h1 : (k == k2) = false := beq_eq_false_iff_ne.mpr (fun he => h he.symm)
      have h2 : (p.1 == k2) = false := beq_eq_false_iff_ne.mpr (fun he => h (he ▸ hk))
      rw [if_neg (by simp [h1]), if_neg (by simp [h2])]
      exact ih
    · have hb : (p.1 == k) = false := beq_eq_false_iff_ne.mpr hk
      rw [if_neg (by simp [hb]), dictGet_cons, dictGet_cons, ih]

theorem dictGet_append (d e : Dict) (k2 : String) :
    dictGet (d ++ e) k2 =
      match dictGet d k2 with
      | some v => some v
      | none => dictGet e k2 := by
  induction d with
  | nil => simp [dictGet]
  | cons p rest ih =>
    rw [List.cons_append, dictGet_cons, dictGet_cons]
    by_cases hk2 : p.1 = k2
    · simp [beq_iff_eq.mpr hk2]
    · simp [beq_eq_false_iff_ne.mpr hk2, ih]

theorem dictGet_set_ne (d : Dict) (k : String) (v : Json) (k2 : String)
    (h : k2 ≠ k) : dictGet (dictSet d k v) k2 = dictGet d k2 := by
  unfold dictSet
  split
  · exact dictGet_map_replace d k v k2 h
  · rw [dictGet_append]
    cases hd : dictGet d k2 with
    | some v2 => rfl
    | none =>
      simp [dictGet_cons, beq_eq_false_iff_ne.mpr (fun he => h he.symm), dictGet]

theorem dictGet_set_self (d : Dict) (k : String) (v : Json) :
    dictGet (dictSet d k v) k = some v := by
  unfold dictSet
  split
  · rename_i hhas
    induction d with
    | nil => simp [dictHas] at hhas
    | cons p rest ih =>
      rw [List.map_cons]
      by_cases hk : p.1 = k
      · have hb : (p.1 == k) = true := beq_iff_eq.mpr hk
        rw [if_pos (by simp [hb]), dictGet_cons]
        simp
      · have hb : (p.1 == k) = false := beq_eq_false_iff_ne.mpr hk
        rw [if_neg (by simp [hb]), dictGet_cons, if_neg (by simp [hb])]
        apply ih
        simp only [dictHas, List.any_cons, hb, Bool.false_or] at hhas
        exact hhas
  · rename_i hhas
    rw [dictGet_append,
      dictGet_none_of_not_has d k (by simpa using hhas)]
    simp [dictGet_cons]

/-- Lookup of a key other than `file`, `strengths`, `weaknesses` is
unchanged by the preprocessing of `processElem`. -/
theorem dictGet_preprocess (kvs : Dict) (k2 : String) (hf : k2 ≠ "file")
    (hs : k2 ≠ "strengths") (hw : k2 ≠ "weaknesses") :
    dictGet (joinListField (joinListField (dictPop kvs "file") "strengths")
      "weaknesses") k2 = dictGet kvs k2 := by
  have h1 : dictGet (dictPop kvs "file") k2 = dictGet kvs k2 :=
    dictGet_pop_ne kvs "file" k2 hf
  have h2 : ∀ (d : Dict) (k : String), k2 ≠ k →
      dictGet (joinListField d k) k2 = dictGet d k2 := by
    intro d k hk
    unfold joinListField
    split
    · exact dictGet_set_ne _ _ _ _ hk
    · rfl
  rw [h2 _ "weaknesses" hw, h2 _ "strengths" hs, h1]

theorem mkJudgeRating_ok_fields (cid file : String) (kwargs : Dict)
    (jr : JudgeRating) (h : mkJudgeRating cid file kwargs = Except.ok jr) :
    vFloat (dictGet kwargs "score") = Except.ok jr.score ∧
    vOptStr (dictGet kwargs "strengths") = Except.ok jr.strengths ∧
    vOptStr (dictGet kwargs "weaknesses") = Except.ok jr.weaknesses ∧
    vOptStr (dictGet kwargs "rationale") = Except.ok jr.rationale ∧
    vOptFloat (dictGet kwargs "initial_score") = Except.ok jr.initial_score ∧
    vOptStr (dictGet kwargs "score_adjustment") = Except.ok jr.score_adjustment := by
  unfold mkJudgeRating at h
  simp only [Bind.bind, Except.bind] at h
  cases h1 : vFloat (dictGet kwargs "score") <;> rw [h1] at h
  · cases h
  cases h2 : vOptStr (dictGet kwargs "strengths") <;> rw [h2] at h
  · cases h
  cases h3 : vOptStr (dictGet kwargs "weaknesses") <;> rw [h3] at h
  · cases h
  cases h4 : vOptStr (dictGet kwargs "rationale") <;> rw [h4] at h
  · cases h
  cases h5 : vOptFloat (dictGet kwargs "initial_score") <;> rw [h5] at h
  · cases h
  cases h6 : vOptStr (dictGet kwargs "score_adjustment") <;> rw [h6] at h
  · cases h
  cases h
  exact ⟨rfl, rfl, rfl, rfl, rfl, rfl⟩

theorem mkJudgeRating_score_error (cid file : String) (kwargs : Dict) (e : String)
    (h : vFloat (dictGet kwargs "score") = Except.error e) :
    mkJudgeRating cid file kwargs = Except.error e := by
  unfold mkJudgeRating
  simp only [Bind.bind, Except.bind]
  rw [h]

theorem joinListField_get_ne (d : Dict) (k k2 : String) (h : k2 ≠ k) :
    dictGet (joinListField d k) k2 = dictGet d k2 := by
  unfold joinListField
  split
  · exact dictGet_set_ne _ _ _ _ h
  · rfl

theorem joinListField_get_self_none (d : Dict) (k : String)
    (h : dictGet d k = none) : dictGet (joinListField d k) k = none := by
  unfold joinListField
  rw [h]
  exact h

theorem joinListField_get_self_arr (d : Dict) (k : String) (xs : List Json)
    (h : dictGet d k = some (Json.arr xs)) :
    dictGet (joinListField d k) k =
      some (Json.str (String.intercalate ", " (List.map pyStr xs))) := by
  unfold joinListField
  rw [h]
  exact dictGet_set_self d k _

theorem processElem_ok_mk (c : CandidateInfo) (kvs : Dict) (jr : JudgeRating)
    (h : processElem c (Json.obj kvs) = Except.ok jr) :
    mkJudgeRating c.candidate_id c.file
      (joinListField (joinListField (dictPop kvs "file") "strengths")
        "weaknesses") = Except.ok jr := by
  simp only [processElem] at h
  split at h
  · cases h
  · exact h

/-- Concrete candidates and ratings used in witnesses and counterexamples. -/
def wCand1 : CandidateInfo :=
  { candidate_id := "id1", file := "a.pdf", name := "Alice",
    email := "alice@example.com" }

def wCand2 : CandidateInfo :=
  { candidate_id := "id2", file := "b.pdf", name := "Bob",
    email := "bob@example.com" }

def wRat1 : CandidateRating :=
  { candidate_id := "id1", file := "a.pdf", score := 7,
    strengths := some "Python", weaknesses := some "none",
    rationale := some "solid" }

def wRat2 : CandidateRating :=
  { candidate_id := "id2", file := "b.pdf", score := 6 }

/-- C3 counterexample: the service returns, for a batch of one, a rating
object with a `score` and `initial_score` but no `strengths`; the
resulting JudgeRating has `strengths = none` — it is NOT backfilled from
the original Rating, whose strengths were `"Python"`. -/
theorem judge_per_field_backfill_cex :
    Except.map (List.map JudgeRating.strengths)
        (judgeAttempt [wCand1] [wRat1] (BatchOutcome.reply (Json.arr
          [Json.obj [("score", Json.floatNum 5),
                     ("initial_score", Json.floatNum 7)]]))) =
      Except.ok [none] ∧
    wRat1.strengths = some "Python" :=
  ⟨rfl, rfl⟩

/-- C3 (amended): per returned judge-rating object, list-valued
`strengths` are joined to one comma-delimited string and numeric-string
scores are coerced to float, but a missing `strengths` stays `None`
(pydantic default, no backfill from the original Rating) and a missing
or non-numeric `score` raises, failing the whole batch attempt (which
is then retried and eventually answered by the full-batch fallback)
rather than being substituted per-field. -/
theorem judge_per_field_reconciliation (c : CandidateInfo) (kvs : Dict) :
    (∀ jr, processElem c (Json.obj kvs) = Except.ok jr →
      (dictGet kvs "strengths" = none → jr.strengths = none) ∧
      (∀ xs, dictGet kvs "strengths" = some (Json.arr xs) →
        jr.strengths = some (String.intercalate ", " (List.map pyStr xs))) ∧
      (∀ s q, dictGet kvs "score" = some (Json.str s) →
        parseFloatString s = some q → jr.score = q)) ∧
    (dictGet kvs "score" = none →
      ∀ jr, processElem c (Json.obj kvs) ≠ Except.ok jr) ∧
    (∀ v e, dictGet kvs "score" = some v → vFloat (some v) = Except.error e →
      ∀ jr, processElem c (Json.obj kvs) ≠ Except.ok jr) := by
  have hget : ∀ k2, k2 ≠ "file" → k2 ≠ "strengths" → k2 ≠ "weaknesses" →
      dictGet (joinListField (joinListField (dictPop kvs "file") "strengths")
        "weaknesses") k2 = dictGet kvs k2 := fun k2 hf hs hw =>
    dictGet_preprocess kvs k2 hf hs hw
  refine ⟨?_, ?_, ?_⟩
  · intro jr h
    have hmk := processElem_ok_mk c kvs jr h
    obtain ⟨hsc, hst, _, _, _, _⟩ := mkJudgeRating_ok_fields _ _ _ _ hmk
    refine ⟨?_, ?_, ?_⟩
    · intro hnone
      have h1 : dictGet (joinListField (dictPop kvs "file") "strengths")
          "strengths" = none :=
        joinListField_get_self_none _ _
          ((dictGet_pop_ne kvs "file" "strengths" (by decide)).trans hnone)
      have h2 := (joinListField_get_ne
        (joinListField (dictPop kvs "file") "strengths")
        "weaknesses" "strengths" (by decide)).trans h1
      rw [h2] at hst
      simp only [vOptStr, Except.ok.injEq] at hst
      exact hst.symm
    · intro xs hxs
      have h1 : dictGet (joinListField (dictPop kvs "file") "strengths")
          "strengths" =
          some (Json.str (String.intercalate ", " (List.map pyStr xs))) :=
        joinListField_get_self_arr _ _ xs
          ((dictGet_pop_ne kvs "file" "strengths" (by decide)).trans hxs)
      have h2 := (joinListField_get_ne
        (joinListField (dictPop kvs "file") "strengths")
        "weaknesses" "strengths" (by decide)).trans h1
      rw [h2] at hst
      simp only [vOptStr, Except.ok.injEq] at hst
      exact hst.symm
    · intro s q hs hq
      rw [hget "score" (by decide) (by decide) (by decide), hs] at hsc
      simp only [vFloat, hq, Except.ok.injEq] at hsc
      exact hsc.symm
  · intro hnone jr h
    have hmk := processElem_ok_mk c kvs jr h
    have he : vFloat (dictGet (joinListField (joinListField (dictPop kvs "file")
        "strengths") "weaknesses") "score") = Except.error "float required" := by
      rw [hget "score" (by decide) (by decide) (by decide), hnone]
      rfl
    rw [mkJudgeRating_score_error _ _ _ _ he] at hmk
    cases hmk
  · intro v e hv he jr h
    have hmk := processElem_ok_mk c kvs jr h
    have he2 : vFloat (dictGet (joinListField (joinListField (dictPop kvs "file")
        "strengths") "weaknesses") "score") = Except.error e := by
      rw [hget "score" (by decide) (by decide) (by decide), hv]
      exact he
    rw [mkJudgeRating_score_error _ _ _ _ he2] at hmk
    cases hmk

/-- Dict of a concrete returned rating object with a list-valued strengths. -/
def kvsW : Dict :=
  [("score", Json.intNum 8), ("strengths", Json.arr [Json.str "A", Json.str "B"])]

/-- Concrete JudgeRating produced from `kvsW` for `wCand1`. -/
def jrW : JudgeRating :=
  { candidate_id := "id1", file := "a.pdf", score := 8, strengths := some "A, B" }

/-- C3 witness: at a concrete returned object, the amended reconciliation
theorem applies and yields the joined strengths string. -/
theorem judge_per_field_reconciliation_witness :
    processElem wCand1 (Json.obj kvsW) = Except.ok jrW ∧
    jrW.strengths = some "A, B" := by
  refine ⟨rfl, ?_⟩
  have h := ((judge_per_field_reconciliation wCand1 kvsW).1 jrW rfl).2.1
    [Json.str "A", Json.str "B"] rfl
  simpa using h

/-- C1: Judge cardinality invariant.  For equal-length, index-aligned
candidate and rating lists and any positive batch size, `judge_all`
returns exactly N JudgeRatings — pointwise, the i-th one carries the
i-th candidate's identity and either is an unadjusted fallback whose
`initial_score` is non-null and equal to the corresponding input
Rating's score (with `score` equal to it), or is the processed form of
an object the external service returned; no candidate is dropped
however the service misbehaves (any `outss` oracle). -/
theorem judge_cardinality_invariant (cands : List CandidateInfo)
    (rats : List CandidateRating) (bs : Nat) (outss : List (List BatchOutcome))
    (hlen : rats.length = cands.length) (hbs : 0 < bs) :
    (judge_all cands rats bs outss).length = cands.length ∧
    List.Forall₂ JROkP (cands.zip rats) (judge_all cands rats bs outss) := by
  rw [judge_all_eq_pre cands rats bs outss hbs]
  refine ⟨?_, judgeAllPre_forall cands rats bs outss hbs⟩
  rw [judgeAllPre_length cands rats bs outss hbs, hlen, min_self]

/-- Oracle for the C1 witness: one batch, first attempt replies with two
well-formed rating objects. -/
def wOutss1 : List (List BatchOutcome) :=
  [[BatchOutcome.reply (Json.arr
    [Json.obj [("score", Json.floatNum 8), ("initial_score", Json.floatNum 7)],
     Json.obj [("score", Json.floatNum 6), ("initial_score", Json.floatNum 6)]])]]

/-- C1 witness: the invariant applied at a concrete two-candidate input. -/
theorem judge_cardinality_invariant_witness :
    [wRat1, wRat2].length = [wCand1, wCand2].length ∧ 0 < 10 ∧
      ((judge_all [wCand1, wCand2] [wRat1, wRat2] 10 wOutss1).length =
          [wCand1, wCand2].length ∧
        List.Forall₂ JROkP ([wCand1, wCand2].zip [wRat1, wRat2])
          (judge_all [wCand1, wCand2] [wRat1, wRat2] 10 wOutss1)) :=
  ⟨rfl, by decide,
    judge_cardinality_invariant [wCand1, wCand2] [wRat1, wRat2] 10 wOutss1 rfl
      (by decide)⟩

/-- C9 counterexample: with two candidates (files `a.pdf`, `b.pdf`) and a
single rating, the collected judge ratings cover only `a.pdf`; `b.pdf`
does not appear among the collected files, yet `judge_all` synthesizes
no fallback for the second candidate — refuting "a candidate receives a
synthesized fallback at the global step if and only if its file value
does not appear among the already-collected judge ratings". -/
theorem judge_global_reconciliation_cex :
    List.map JudgeRating.file (judge_all [wCand1, wCand2] [wRat1] 10 [[]]) =
      ["a.pdf"] ∧
    ¬ ("b.pdf" ∈
      List.map JudgeRating.file (judge_all [wCand1, wCand2] [wRat1] 10 [[]])) := by
  refine ⟨rfl, ?_⟩
  intro hmem
  have h : List.map JudgeRating.file (judge_all [wCand1, wCand2] [wRat1] 10 [[]]) =
      ["a.pdf"] := rfl
  rw [h] at hmem
  simp at hmem

/-- C9 (amended): `judge_all`'s global reconciliation walks
`zip(candidates, ratings)` and tests the candidate's **file** against
the files of the collected judge ratings; since each zip-paired
candidate always yields a judge rating bearing its own file, the global
step never synthesizes anything, and `judge_all` returns
`min N |ratings|` JudgeRatings — so a candidate beyond the ratings list
is dropped (in particular when it shares its filename with a candidate
that did receive a judge rating). -/
theorem judge_global_reconciliation_by_file (cands : List CandidateInfo)
    (rats : List CandidateRating) (bs : Nat) (outss : List (List BatchOutcome))
    (hbs : 0 < bs) :
    globalFallbacks cands rats (judgeAllPre cands rats bs outss) = [] ∧
    (judge_all cands rats bs outss).length = min cands.length rats.length := by
  refine ⟨globalFallbacks_nil cands rats bs outss hbs, ?_⟩
  rw [judge_all_eq_pre cands rats bs outss hbs,
    judgeAllPre_length cands rats bs outss hbs]

/-- A second candidate sharing `wCand1`'s filename. -/
def wDupCand2 : CandidateInfo :=
  { candidate_id := "id2", file := "a.pdf", name := "Bob",
    email := "bob@example.com" }

/-- Oracle for the C9 witness: the service returns one rating object. -/
def wOutss9 : List (List BatchOutcome) :=
  [[BatchOutcome.reply (Json.arr [Json.obj [("score", Json.intNum 8)]])]]

/-- C9 witness: two candidates share `a.pdf`, only the first is paired
with a rating and receives a judge rating; `judge_all` returns a single
JudgeRating — one candidate is dropped. -/
theorem judge_global_reconciliation_by_file_witness :
    0 < 10 ∧
      (globalFallbacks [wCand1, wDupCand2] [wRat1]
          (judgeAllPre [wCand1, wDupCand2] [wRat1] 10 wOutss9) = [] ∧
        (judge_all [wCand1, wDupCand2] [wRat1] 10 wOutss9).length =
          min [wCand1, wDupCand2].length [wRat1].length) ∧
    (judge_all [wCand1, wDupCand2] [wRat1] 10 wOutss9).length = 1 :=
  ⟨by decide,
    judge_global_reconciliation_by_file [wCand1, wDupCand2] [wRat1] 10 wOutss9
      (by decide), rfl⟩

theorem judgeBatchGo_step (cands : List CandidateInfo)
    (rats : List CandidateRating) (outs : List BatchOutcome) (n : Nat)
    (m : String)
    (h : judgeAttempt cands rats (outs.headD BatchOutcome.failure) =
      Except.error m) :
    judgeBatchGo cands rats outs (n + 1) =
      if n = 0 then
        fallbackBatch cands rats
          "No adjustment - using original rating due to LLM failure after 3 attempts"
      else judgeBatchGo cands rats outs.tail n := by
  simp only [judgeBatchGo]
  rw [h]

/-- C4: Judge retry ladder.  When all three attempts for a batch fail
(the oracle gives no acceptable reply), `_judge_batch` returns — it
cannot raise, being a total function of the oracle — one fallback
JudgeRating per batch member: a copy of the original Rating whose
`initial_score` is the original score, whose `score` equals it, and
whose adjustment note names the failure.  (The `time.sleep(2**attempt)`
exponential backoff between attempts does not affect the result.) -/
theorem judge_retry_ladder (cands : List CandidateInfo)
    (rats : List CandidateRating) (outs : List BatchOutcome)
    (hlen : rats.length = cands.length)
    (h0 : ∀ jrs, judgeAttempt cands rats (outs.headD BatchOutcome.failure) ≠
      Except.ok jrs)
    (h1 : ∀ jrs, judgeAttempt cands rats (outs.tail.headD BatchOutcome.failure) ≠
      Except.ok jrs)
    (h2 : ∀ jrs,
      judgeAttempt cands rats (outs.tail.tail.headD BatchOutcome.failure) ≠
        Except.ok jrs) :
    judgeBatch cands rats outs =
      fallbackBatch cands rats
        "No adjustment - using original rating due to LLM failure after 3 attempts" ∧
    (judgeBatch cands rats outs).length = cands.length ∧
    ∀ jr ∈ judgeBatch cands rats outs,
      jr.initial_score = some jr.score ∧
      jr.score_adjustment =
        some "No adjustment - using original rating due to LLM failure after 3 attempts" := by
  have e0 : ∃ m, judgeAttempt cands rats (outs.headD BatchOutcome.failure) =
      Except.error m := by
    cases ha : judgeAttempt cands rats (outs.headD BatchOutcome.failure) with
    | ok jrs => exact absurd ha (h0 jrs)
    | error m => exact ⟨m, rfl⟩
  have e1 : ∃ m, judgeAttempt cands rats (outs.tail.headD BatchOutcome.failure) =
      Except.error m := by
    cases ha : judgeAttempt cands rats (outs.tail.headD BatchOutcome.failure) with
    | ok jrs => exact absurd ha (h1 jrs)
    | error m => exact ⟨m, rfl⟩
  have e2 : ∃ m,
      judgeAttempt cands rats (outs.tail.tail.headD BatchOutcome.failure) =
        Except.error m := by
    cases ha : judgeAttempt cands rats (outs.tail.tail.headD BatchOutcome.failure)
      with
    | ok jrs => exact absurd ha (h2 jrs)
    | error m => exact ⟨m, rfl⟩
  obtain ⟨m0, e0⟩ := e0
  obtain ⟨m1, e1⟩ := e1
  obtain ⟨m2, e2⟩ := e2
  have hb : judgeBatch cands rats outs =
      fallbackBatch cands rats
        "No adjustment - using original rating due to LLM failure after 3 attempts" := by
    unfold judgeBatch
    rw [show (3 : Nat) = 2 + 1 from rfl, judgeBatchGo_step cands rats outs 2 m0 e0,
      if_neg (by omega), show (2 : Nat) = 1 + 1 from rfl,
      judgeBatchGo_step cands rats outs.tail 1 m1 e1, if_neg (by omega),
      show (1 : Nat) = 0 + 1 from rfl,
      judgeBatchGo_step cands rats outs.tail.tail 0 m2 e2, if_pos rfl]
  refine ⟨hb, ?_, ?_⟩
  · rw [hb]
    unfold fallbackBatch
    rw [List.length_map, List.length_zip, hlen, min_self]
  · intro jr hjr
    rw [hb] at hjr
    unfold fallbackBatch at hjr
    obtain ⟨p, _, rfl⟩ := List.mem_map.mp hjr
    exact ⟨rfl, rfl⟩

/-- C4 witness: the ladder applied to a one-candidate batch whose three
attempts all fail (empty oracle: every attempt is a service failure). -/
theorem judge_retry_ladder_witness :
    [wRat1].length = [wCand1].length ∧
      (judgeBatch [wCand1] [wRat1] [] =
        fallbackBatch [wCand1] [wRat1]
          "No adjustment - using original rating due to LLM failure after 3 attempts" ∧
      (judgeBatch [wCand1] [wRat1] []).length = [wCand1].length ∧
      ∀ jr ∈ judgeBatch [wCand1] [wRat1] [],
        jr.initial_score = some jr.score ∧
        jr.score_adjustment =
          some "No adjustment - using original rating due to LLM failure after 3 attempts") :=
  ⟨rfl, judge_retry_ladder [wCand1] [wRat1] [] rfl (fun _ h => nomatch h)
    (fun _ h => nomatch h) (fun _ h => nomatch h)⟩

theorem getD_zip {α β : Type} (l1 : List α) (l2 : List β) (i : Nat) (d1 : α)
    (d2 : β) (h1 : i < l1.length) (h2 : i < l2.length) :
    (l1.zip l2).getD i (d1, d2) = (l1.getD i d1, l2.getD i d2) := by
  induction l1 generalizing l2 i with
  | nil => simp at h1
  | cons a l1 ih =>
    cases l2 with
    | nil => simp at h2
    | cons b l2 =>
      cases i with
      | zero => simp [List.zip_cons_cons]
      | succ i =>
        simp only [List.zip_cons_cons, List.getD_cons_succ]
        exact ih l2 i (by simpa using h1) (by simpa using h2)

theorem getD_map {α β : Type} (f : α → β) (l : List α) (i : Nat) (d : β)
    (d0 : α) (h : i < l.length) :
    (List.map f l).getD i d = f (l.getD i d0) := by
  induction l generalizing i with
  | nil => simp at h
  | cons a l ih =>
    cases i with
    | zero => simp
    | succ i =>
      simp only [List.map_cons, List.getD_cons_succ]
      exact ih i (by simpa using h)

theorem processPairs_spec :
    ∀ (pairs : List (CandidateInfo × CandidateRating)) (elems : List Json)
      (jrs : List JudgeRating), processPairs pairs elems = Except.ok jrs →
      jrs.length = pairs.length ∧
      ∀ i, i < pairs.length →
        (i < elems.length →
          processElem (pairs.getD i (dummyCand, dummyRat)).1
            (elems.getD i Json.null) = Except.ok (jrs.getD i dummyJR)) ∧
        (elems.length ≤ i →
          jrs.getD i dummyJR =
            fallbackJR (pairs.getD i (dummyCand, dummyRat)).1
              (pairs.getD i (dummyCand, dummyRat)).2
              "No adjustment - using original rating due to missing LLM response") := by
  intro pairs
  induction pairs with
  | nil =>
    intro elems jrs h
    simp only [processPairs] at h
    cases h
    exact ⟨rfl, fun i hi => absurd hi (by simp)⟩
  | cons p rest ih =>
    intro elems jrs h
    cases elems with
    | nil =>
      simp only [processPairs, Bind.bind, Except.bind] at h
      cases hrec : processPairs rest [] <;> rw [hrec] at h
      · cases h
      cases h
      obtain ⟨hlen, hidx⟩ := ih [] _ hrec
      refine ⟨by simp [hlen], ?_⟩
      intro i hi
      cases i with
      | zero =>
        exact ⟨fun hlt => absurd hlt (by simp), fun _ => rfl⟩
      | succ i =>
        refine ⟨fun hlt => absurd hlt (by simp), fun _ => ?_⟩
        simp only [List.getD_cons_succ]
        exact (hidx i (by simpa using hi)).2 (by simp)
    | cons elem elems =>
      simp only [processPairs, Bind.bind, Except.bind] at h
      cases helem : processElem p.1 elem <;> rw [helem] at h
      · cases h
      cases hrec : processPairs rest elems <;> rw [hrec] at h
      · cases h
      cases h
      obtain ⟨hlen, hidx⟩ := ih elems _ hrec
      refine ⟨by simp [hlen], ?_⟩
      intro i hi
      cases i with
      | zero =>
        exact ⟨fun _ => helem, fun hle => absurd hle (by simp)⟩
      | succ i =>
        refine ⟨fun hlt => ?_, fun hle => ?_⟩
        · simp only [List.getD_cons_succ]
          exact (hidx i (by simpa using hi)).1 (by simpa using hlt)
        · simp only [List.getD_cons_succ]
          exact (hidx i (by simpa using hi)).2 (by simpa using hle)

/-- C2: Cardinality reconciliation by position.  For a batch of B
candidates with B aligned ratings where the service returns a
well-formed array of K < B rating objects, `_judge_batch`'s processing
returns exactly B JudgeRatings: the first K are the positionally
processed objects (i-th object for i-th candidate submitted), and each
of the remaining B−K candidates gets a synthesized fallback copied from
its original Rating, with `score` equal to the rating's score and
`initial_score` carrying that same score. -/
theorem judge_count_mismatch_reconciliation (cands : List CandidateInfo)
    (rats : List CandidateRating) (arr : List Json) (jrs : List JudgeRating)
    (hlen : rats.length = cands.length) (hK : arr.length < cands.length)
    (hok : judgeAttempt cands rats (BatchOutcome.reply (Json.arr arr)) =
      Except.ok jrs) :
    jrs.length = cands.length ∧
    (∀ i, i < arr.length →
      processElem (cands.getD i dummyCand) (arr.getD i Json.null) =
        Except.ok (jrs.getD i dummyJR)) ∧
    (∀ i, arr.length ≤ i → i < cands.length →
      ∃ note,
        jrs.getD i dummyJR =
          fallbackJR (cands.getD i dummyCand) (rats.getD i dummyRat) note ∧
        (jrs.getD i dummyJR).score = (rats.getD i dummyRat).score ∧
        (jrs.getD i dummyJR).initial_score =
          some ((rats.getD i dummyRat).score)) := by
  have hzlen : (cands.zip rats).length = cands.length := by
    rw [List.length_zip, hlen, min_self]
  simp only [judgeAttempt, extractRatingsArray, Bind.bind, Except.bind] at hok
  by_cases hemp : arr = []
  · subst hemp
    rw [if_pos List.isEmpty_nil] at hok
    cases hok
    refine ⟨?_, fun i hi => absurd hi (by simp), ?_⟩
    · unfold fallbackBatch
      rw [List.length_map, hzlen]
    · intro i _ hic
      refine ⟨"No adjustment - using original rating due to parsing error",
        ?_, ?_, ?_⟩ <;>
      · unfold fallbackBatch
        rw [getD_map _ _ _ _ (dummyCand, dummyRat) (by omega),
          getD_zip cands rats i dummyCand dummyRat (by omega) (by omega)]
        try rfl
  · rw [if_neg (fun hh => hemp (List.isEmpty_iff.mp hh))] at hok
    obtain ⟨hlen2, hidx⟩ := processPairs_spec _ _ _ hok
    refine ⟨by rw [hlen2, hzlen], ?_, ?_⟩
    · intro i hi
      have := (hidx i (by omega)).1 hi
      rwa [getD_zip cands rats i dummyCand dummyRat (by omega) (by omega)]
        at this
    · intro i h0 hic
      have hfb := (hidx i (by omega)).2 h0
      rw [getD_zip cands rats i dummyCand dummyRat (by omega) (by omega)] at hfb
      exact ⟨_, hfb, by rw [hfb]; rfl, by rw [hfb]; rfl⟩

/-- A well-formed reply array of one rating object, shorter than the batch. -/
def arrW2 : List Json := [Json.obj [("score", Json.floatNum 8)]]

/-- The two JudgeRatings produced from `arrW2` for the batch
`[wCand1, wCand2]`: one processed, one synthesized fallback. -/
def jrsW2 : List JudgeRating :=
  [{ candidate_id := "id1", file := "a.pdf", score := 8 },
   fallbackJR wCand2 wRat2
     "No adjustment - using original rating due to missing LLM response"]

/-- C2 witness: batch of 2, reply array of 1 — the first candidate gets
the positionally mapped object, the second a fallback copy of its
original Rating. -/
theorem judge_count_mismatch_reconciliation_witness :
    [wRat1, wRat2].length = [wCand1, wCand2].length ∧
    arrW2.length < [wCand1, wCand2].length ∧
    (jrsW2.length = [wCand1, wCand2].length ∧
      (∀ i, i < arrW2.length →
        processElem ([wCand1, wCand2].getD i dummyCand) (arrW2.getD i Json.null) =
          Except.ok (jrsW2.getD i dummyJR)) ∧
      (∀ i, arrW2.length ≤ i → i < [wCand1, wCand2].length →
        ∃ note,
          jrsW2.getD i dummyJR =
            fallbackJR ([wCand1, wCand2].getD i dummyCand)
              ([wRat1, wRat2].getD i dummyRat) note ∧
          (jrsW2.getD i dummyJR).score = ([wRat1, wRat2].getD i dummyRat).score ∧
          (jrsW2.getD i dummyJR).initial_score =
            some (([wRat1, wRat2].getD i dummyRat).score))) :=
  ⟨rfl, by decide,
    judge_count_mismatch_reconciliation [wCand1, wCand2] [wRat1, wRat2] arrW2
      jrsW2 rfl (by decide) rfl⟩

/-! ## The extraction stage (`agent_extraction.py`)

The post-processing `ExtractionAgent.extract` applies to the parsed
service reply before constructing `CandidateInfo`. -/

/-- Coerce one list-expected field: a list is kept, an absent key or
JSON `null` becomes `[]`, a dict becomes the list of its keys, any
other scalar becomes a one-element list of its `str()` form. -/
def coerceListField (data : Dict) (k : String) : Dict :=
  match dictGet data k with
  | some (Json.arr _) => data
  | none => dictSet data k (Json.arr [])
  | some Json.null => dictSet data k (Json.arr [])
  | some (Json.obj kvs) =>
    dictSet data k (Json.arr (List.map (fun p => Json.str p.1) kvs))
  | some v => dictSet data k (Json.arr [Json.str (pyStr v)])

/-- Value of the leading digit run of a char list (`re.findall(r'\d+')`,
first match, as `int`). -/
def digitsVal (cs : List Char) : Nat :=
  cs.foldl (fun acc c => acc * 10 + (c.toNat - 48)) 0

/-- First embedded natural number of a string, `none` if it has none. -/
def firstNumber : List Char → Option Nat
  | [] => none
  | c :: rest =>
    if c.isDigit then some (digitsVal (c :: List.takeWhile Char.isDigit rest))
    else firstNumber rest

/-- `years_experience` arriving as a string: first embedded integer, or
null when none is found; any other shape is left to pydantic. -/
def normalizeYears (data : Dict) : Dict :=
  match dictGet data "years_experience" with
  | some (Json.str s) =>
    match firstNumber s.toList with
    | some n => dictSet data "years_experience" (Json.intNum n)
    | none => dictSet data "years_experience" Json.null
  | _ => data

/-- The fixed enumeration of valid Brazilian state codes. -/
def brazilianStates : List String :=
  ["AC", "AL", "AP", "AM", "BA", "CE", "DF", "ES", "GO", "MA",
   "MT", "MS", "MG", "PA", "PB", "PR", "PE", "PI", "RJ", "RN",
   "RS", "RO", "RR", "SC", "SP", "SE", "TO"]

/-- Normalize `uf`: when truthy, strip/uppercase and validate against
the fixed enumeration, discarding invalid codes to null. -/
def normalizeUf (data : Dict) : Dict :=
  if pyTruthy (dictGet data "uf") then
    let uf := String.mk (List.map Char.toUpper
      (trimChars (pyStr ((dictGet data "uf").getD Json.null)).toList))
    if brazilianStates.contains uf then dictSet data "uf" (Json.str uf)
    else dictSet data "uf" Json.null
  else data

/-- Python `str.title()` (ASCII model: first letter of each word
uppercased, the rest lowercased; word boundaries at non-letters). -/
def pyTitleAux : Bool → List Char → List Char
  | _, [] => []
  | prev, c :: cs =>
    if c.isAlpha then
      (if prev then c.toLower else c.toUpper) :: pyTitleAux true cs
    else c :: pyTitleAux false cs

def pyTitle (s : String) : String :=
  String.mk (pyTitleAux false s.toList)

/-- Normalize `city`: when truthy, strip and title-case; an
all-whitespace value becomes null. -/
def normalizeCity (data : Dict) : Dict :=
  if pyTruthy (dictGet data "city") then
    let city := String.mk (trimChars (pyStr ((dictGet data "city").getD Json.null)).toList)
    if ¬ city.isEmpty then dictSet data "city" (Json.str (pyTitle city))
    else dictSet data "city" Json.null
  else data

/-- `if data.get(k) is None: data[k] = v` (absent or JSON null). -/
def fillDefault (data : Dict) (k : String) (v : String) : Dict :=
  match dictGet data k with
  | none => dictSet data k (Json.str v)
  | some Json.null => dictSet data k (Json.str v)
  | _ => data

/-- The post-processing of `ExtractionAgent.extract` followed by
`CandidateInfo(candidate_id=..., file=..., **data)`.  The normalized
`uf` and `city` keys are still in the dict at construction time, but
`CandidateInfo` declares no such fields, so pydantic v2 ignores them. -/
def extract_post (cid file : String) (data : Dict) : Except String CandidateInfo :=
  let d := coerceListField data "languages"
  let d := coerceListField d "programming_languages"
  let d := coerceListField d "frameworks"
  let d := normalizeYears d
  let d := normalizeUf d
  let d := normalizeCity d
  let d := fillDefault d "name" "Desconhecido"
  let d := fillDefault d "email" "Email não fornecido"
  mkCandidateInfo cid file d

theorem coerceListField_get_ne (d : Dict) (k k2 : String) (h : k2 ≠ k) :
    dictGet (coerceListField d k) k2 = dictGet d k2 := by
  unfold coerceListField
  split <;> first
    | rfl
    | exact dictGet_set_ne _ _ _ _ h

theorem normalizeYears_get_ne (d : Dict) (k2 : String)
    (h : k2 ≠ "years_experience") :
    dictGet (normalizeYears d) k2 = dictGet d k2 := by
  unfold normalizeYears
  split
  · split <;> exact dictGet_set_ne _ _ _ _ h
  · rfl

theorem normalizeUf_get_ne (d : Dict) (k2 : String) (h : k2 ≠ "uf") :
    dictGet (normalizeUf d) k2 = dictGet d k2 := by
  unfold normalizeUf
  split
  · dsimp only
    split <;> exact dictGet_set_ne _ _ _ _ h
  · rfl

theorem normalizeCity_get_ne (d : Dict) (k2 : String) (h : k2 ≠ "city") :
    dictGet (normalizeCity d) k2 = dictGet d k2 := by
  unfold normalizeCity
  split
  · dsimp only
    split <;> exact dictGet_set_ne _ _ _ _ h
  · rfl

theorem fillDefault_get_ne (d : Dict) (k : String) (v : String) (k2 : String)
    (h : k2 ≠ k) : dictGet (fillDefault d k v) k2 = dictGet d k2 := by
  unfold fillDefault
  split <;> first
    | rfl
    | exact dictGet_set_ne _ _ _ _ h

theorem mkCandidateInfo_ok_fields (cid file : String) (kwargs : Dict)
    (info : CandidateInfo) (h : mkCandidateInfo cid file kwargs = Except.ok info) :
    info.candidate_id = cid ∧ info.file = file ∧
    vStr (dictGet kwargs "name") = Except.ok info.name ∧
    vStr (dictGet kwargs "email") = Except.ok info.email ∧
    vListStr (dictGet kwargs "languages") = Except.ok info.languages ∧
    vListStr (dictGet kwargs "programming_languages") =
      Except.ok info.programming_languages ∧
    vListStr (dictGet kwargs "frameworks") = Except.ok info.frameworks := by
  unfold mkCandidateInfo at h
  simp only [Bind.bind, Except.bind] at h
  cases h1 : vStr (dictGet kwargs "name") <;> rw [h1] at h
  · cases h
  cases h2 : vStr (dictGet kwargs "email") <;> rw [h2] at h
  · cases h
  cases h3 : vOptStr (dictGet kwargs "phone") <;> rw [h3] at h
  · cases h
  cases h4 : vListStr (dictGet kwargs "languages") <;> rw [h4] at h
  · cases h
  cases h5 : vListStr (dictGet kwargs "programming_languages") <;> rw [h5] at h
  · cases h
  cases h6 : vListStr (dictGet kwargs "frameworks") <;> rw [h6] at h
  · cases h
  cases h7 : vOptInt (dictGet kwargs "years_experience") <;> rw [h7] at h
  · cases h
  cases h8 : vOptStr (dictGet kwargs "education") <;> rw [h8] at h
  · cases h
  cases h9 : vOptStr (dictGet kwargs "summary") <;> rw [h9] at h
  · cases h
  cases h
  exact ⟨rfl, rfl, rfl, rfl, rfl, rfl, rfl⟩

theorem vListStr_strs (l : List String) :
    vListStr (some (Json.arr (List.map Json.str l))) = Except.ok l := by
  induction l with
  | nil => rfl
  | cons s rest ih =>
    simp only [vListStr, List.map_cons, List.foldr_cons] at ih ⊢
    rw [ih]

/-- Chain of key-preservation from the final kwargs dict back to the
output of the `languages` coercion. -/
theorem extract_post_languages_get (data : Dict) :
    dictGet (fillDefault (fillDefault (normalizeCity (normalizeUf
      (normalizeYears (coerceListField (coerceListField
        (coerceListField data "languages") "programming_languages")
        "frameworks")))) "name" "Desconhecido") "email" "Email não fornecido")
      "languages" =
    dictGet (coerceListField data "languages") "languages" := by
  rw [fillDefault_get_ne _ _ _ _ (by decide),
    fillDefault_get_ne _ _ _ _ (by decide),
    normalizeCity_get_ne _ _ (by decide),
    normalizeUf_get_ne _ _ (by decide),
    normalizeYears_get_ne _ _ (by decide),
    coerceListField_get_ne _ _ _ (by decide),
    coerceListField_get_ne _ _ _ (by decide)]

/-- C5: Extractor list-field coercion, stated for `languages` exactly as
claimed (the `programming_languages` and `frameworks` coercions are the
same `coerceListField`): a null (or absent) value yields `[]`, a map
yields the list of its keys, any other scalar yields the one-element
list of its string form — whenever extraction succeeds, these are the
`languages` of the returned CandidateInfo. -/
theorem extractor_list_coercion (cid file : String) (data : Dict) :
    (∀ info, (dictGet data "languages" = none ∨
        dictGet data "languages" = some Json.null) →
      extract_post cid file data = Except.ok info → info.languages = []) ∧
    (∀ info kvs, dictGet data "languages" = some (Json.obj kvs) →
      extract_post cid file data = Except.ok info →
      info.languages = List.map (fun p => p.1) kvs) ∧
    (∀ info v, dictGet data "languages" = some v →
      (∀ xs, v ≠ Json.arr xs) → v ≠ Json.null → (∀ kvs, v ≠ Json.obj kvs) →
      extract_post cid file data = Except.ok info →
      info.languages = [pyStr v]) := by
  refine ⟨?_, ?_, ?_⟩
  · intro info hv h
    obtain ⟨_, _, _, _, hlang, _, _⟩ := mkCandidateInfo_ok_fields _ _ _ _ h
    rw [extract_post_languages_get] at hlang
    have hco : dictGet (coerceListField data "languages") "languages" =
        some (Json.arr []) := by
      unfold coerceListField
      cases hv with
      | inl hv => rw [hv]; exact dictGet_set_self _ _ _
      | inr hv => rw [hv]; exact dictGet_set_self _ _ _
    rw [hco] at hlang
    have : vListStr (some (Json.arr [])) = Except.ok ([] : List String) := rfl
    rw [this] at hlang
    exact (Except.ok.injEq _ _).mp hlang.symm
  · intro info kvs hv h
    obtain ⟨_, _, _, _, hlang, _, _⟩ := mkCandidateInfo_ok_fields _ _ _ _ h
    rw [extract_post_languages_get] at hlang
    have hco : dictGet (coerceListField data "languages") "languages" =
        some (Json.arr (List.map Json.str (List.map (fun p => p.1) kvs))) := by
      unfold coerceListField
      rw [hv, List.map_map]
      exact dictGet_set_self _ _ _
    rw [hco, vListStr_strs] at hlang
    exact (Except.ok.injEq _ _).mp hlang.symm
  · intro info v hv harr hnull hobj h
    obtain ⟨_, _, _, _, hlang, _, _⟩ := mkCandidateInfo_ok_fields _ _ _ _ h
    rw [extract_post_languages_get] at hlang
    have hco : dictGet (coerceListField data "languages") "languages" =
        some (Json.arr [Json.str (pyStr v)]) := by
      unfold coerceListField
      rw [hv]
      cases v with
      | null => exact absurd rfl hnull
      | arr xs => exact absurd rfl (harr xs)
      | obj kvs => exact absurd rfl (hobj kvs)
      | bool b => exact dictGet_set_self _ _ _
      | intNum n => exact dictGet_set_self _ _ _
      | floatNum q => exact dictGet_set_self _ _ _
      | str s => exact dictGet_set_self _ _ _
    rw [hco] at hlang
    have : vListStr (some (Json.arr [Json.str (pyStr v)])) =
        Except.ok [pyStr v] := rfl
    rw [this] at hlang
    exact (Except.ok.injEq _ _).mp hlang.symm

def dataLangNull : Dict :=
  [("name", Json.str "Alice"), ("email", Json.str "alice@example.com"),
   ("languages", Json.null)]

def dataLangMap : Dict :=
  [("name", Json.str "Alice"), ("email", Json.str "alice@example.com"),
   ("languages", Json.obj [("English", Json.str "fluent")])]

def dataLangStr : Dict :=
  [("name", Json.str "Alice"), ("email", Json.str "alice@example.com"),
   ("languages", Json.str "English")]

def infoLangNull : CandidateInfo :=
  { candidate_id := "id1", file := "a.pdf", name := "Alice",
    email := "alice@example.com" }

def infoLang : CandidateInfo :=
  { candidate_id := "id1", file := "a.pdf", name := "Alice",
    email := "alice@example.com", languages := ["English"] }

/-- C5 witness: the three claimed shapes at concrete service replies —
`languages` null, `{"English": "fluent"}`, `"English"` yield `[]`,
`["English"]`, `["English"]`. -/
theorem extractor_list_coercion_witness :
    (extract_post "id1" "a.pdf" dataLangNull = Except.ok infoLangNull ∧
      infoLangNull.languages = []) ∧
    (extract_post "id1" "a.pdf" dataLangMap = Except.ok infoLang ∧
      infoLang.languages = ["English"]) ∧
    (extract_post "id1" "a.pdf" dataLangStr = Except.ok infoLang ∧
      infoLang.languages = ["English"]) := by
  refine ⟨⟨rfl, ?_⟩, ⟨rfl, ?_⟩, ⟨rfl, ?_⟩⟩
  · exact (extractor_list_coercion "id1" "a.pdf" dataLangNull).1 infoLangNull
      (Or.inr rfl) rfl
  · simpa using (extractor_list_coercion "id1" "a.pdf" dataLangMap).2.1 infoLang
      [("English", Json.str "fluent")] rfl rfl
  · simpa using (extractor_list_coercion "id1" "a.pdf" dataLangStr).2.2 infoLang
      (Json.str "English") rfl (fun _ h => nomatch h) (fun h => nomatch h)
      (fun _ h => nomatch h) rfl

def dataUf6 : Dict :=
  [("name", Json.str "Alice"), ("email", Json.str "alice@example.com"),
   ("uf", Json.str "sp"), ("city", Json.str "belo horizonte")]

def dataNoUf6 : Dict :=
  [("name", Json.str "Alice"), ("email", Json.str "alice@example.com"),
   ("uf", Json.null), ("city", Json.null)]

def infoUf6 : CandidateInfo :=
  { candidate_id := "id1", file := "cv.pdf", name := "Alice",
    email := "alice@example.com" }

/-- C6: region/state validation and city title-casing do happen inside
`extract` (first two conjuncts), but the resulting values do NOT appear
in the returned CandidateProfile: `models.py` declares no `uf`/`city`
fields, pydantic v2 silently drops the extra keys, and the extraction
result is identical whether `uf`/`city` were present or null (last two
conjuncts) — while `agent_rating.py` reads `candidate.uf`/`candidate.city`
and `tests/test_combiner.py` constructs `CandidateInfo(uf=..., city=...)`
and asserts the `UF` column, so the missing fields are a slip in
`models.py`. -/
theorem extraction_region_city_dropped :
    dictGet (normalizeUf [("uf", Json.str "sp")]) "uf" = some (Json.str "SP") ∧
    dictGet (normalizeCity [("city", Json.str "belo horizonte")]) "city" =
      some (Json.str "Belo Horizonte") ∧
    extract_post "id1" "cv.pdf" dataUf6 = Except.ok infoUf6 ∧
    extract_post "id1" "cv.pdf" dataNoUf6 = Except.ok infoUf6 :=
  ⟨rfl, rfl, rfl, rfl⟩

/-! ## The rating stage (`agent_rating.py`) -/

theorem dictHas_map_replace (d : Dict) (k : String) (v : Json) (k2 : String)
    (h : k2 ≠ k) :
    dictHas (List.map (fun p => if p.1 == k then (k, v) else p) d) k2 =
      dictHas d k2 := by
  induction d with
  | nil => rfl
  | cons p rest ih =>
    rw [List.map_cons]
    by_cases hk : p.1 = k
    · have hb : (p.1 == k) = true := beq_iff_eq.mpr hk
      rw [if_pos (by simp [hb])]
      simp only [dictHas, List.any_cons] at ih ⊢
      rw [ih]
      have h1 : (k == k2) = false := beq_eq_false_iff_ne.mpr (fun he => h he.symm)
      have h2 : (p.1 == k2) = false :=
        beq_eq_false_iff_ne.mpr (fun he => h (he ▸ hk))
      rw [h1, h2]
    · have hb : (p.1 == k) = false := beq_eq_false_iff_ne.mpr hk
      rw [if_neg (by simp [hb])]
      simp only [dictHas, List.any_cons] at ih ⊢
      rw [ih]

theorem dictHas_set_ne (d : Dict) (k : String) (v : Json) (k2 : String)
    (h : k2 ≠ k) : dictHas (dictSet d k v) k2 = dictHas d k2 := by
  unfold dictSet
  split
  · exact dictHas_map_replace d k v k2 h
  · simp only [dictHas, List.any_append, List.any_cons, List.any_nil,
      beq_eq_false_iff_ne.mpr (fun he => h he.symm), Bool.or_false]

/-- `RatingAgent.rate`, from the parsed JSON reply onward: if a `score`
key is present, coerce it with Python `float()`, substituting `0.0`
when that raises (this is the only code inside the try/except); then
`CandidateRating(candidate_id=..., file=..., **obj)` — which raises
`TypeError` (duplicate keyword argument), outside any handler, when the
reply object itself carries a `candidate_id` or `file` key. -/
def rateProcess (c : CandidateInfo) (obj : Dict) : Except String CandidateRating :=
  let obj2 :=
    match dictGet obj "score" with
    | some v =>
      match pyFloat v with
      | some q => dictSet obj "score" (Json.floatNum q)
      | none => dictSet obj "score" (Json.floatNum 0)
    | none => obj
  if dictHas obj2 "candidate_id" || dictHas obj2 "file" then
    Except.error "TypeError: got multiple values for keyword argument"
  else mkCandidateRating c.candidate_id c.file obj2

/-- C10: when the reply's `score` cannot be parsed as a float — and the
rest of the reply is well-formed: the optional text fields validate,
and the object carries no `candidate_id`/`file` key (either of which
makes the unprotected `CandidateRating(...)` call raise `TypeError`
regardless of the score) — `rate` does not raise: it substitutes `0.0`
and returns a CandidateRating with score `0`. -/
theorem rating_unparseable_score (c : CandidateInfo) (obj : Dict) (v : Json)
    (hv : dictGet obj "score" = some v) (hbad : pyFloat v = none)
    (hcid : dictHas obj "candidate_id" = false)
    (hfile : dictHas obj "file" = false)
    (h1 : ∃ st, vOptStr (dictGet obj "strengths") = Except.ok st)
    (h2 : ∃ wk, vOptStr (dictGet obj "weaknesses") = Except.ok wk)
    (h3 : ∃ rt, vOptStr (dictGet obj "rationale") = Except.ok rt) :
    ∃ r, rateProcess c obj = Except.ok r ∧ r.score = 0 := by
  obtain ⟨st, h1⟩ := h1
  obtain ⟨wk, h2⟩ := h2
  obtain ⟨rt, h3⟩ := h3
  refine ⟨{ candidate_id := c.candidate_id, file := c.file, score := 0,
            strengths := st, weaknesses := wk, rationale := rt }, ?_, rfl⟩
  unfold rateProcess
  rw [hv]
  dsimp only
  rw [hbad]
  rw [dictHas_set_ne _ _ _ _ (by decide), dictHas_set_ne _ _ _ _ (by decide),
    hcid, hfile]
  rw [if_neg (by simp)]
  unfold mkCandidateRating
  simp only [Bind.bind, Except.bind]
  rw [dictGet_set_self]
  rw [dictGet_set_ne _ _ _ _ (by decide), h1]
  rw [dictGet_set_ne _ _ _ _ (by decide), h2]
  rw [dictGet_set_ne _ _ _ _ (by decide), h3]
  rfl

/-- Concrete reply with an unparseable score. -/
def objBadScore : Dict :=
  [("score", Json.str "N/A"), ("strengths", Json.str "Good Python"),
   ("weaknesses", Json.str "None"), ("rationale", Json.str "ok")]

/-- C10 witness: at a concrete reply whose score is the string `"N/A"`
(and which carries no `candidate_id`/`file` key), `rate` returns a
rating with score `0`. -/
theorem rating_unparseable_score_witness :
    dictGet objBadScore "score" = some (Json.str "N/A") ∧
    pyFloat (Json.str "N/A") = none ∧
    dictHas objBadScore "candidate_id" = false ∧
    dictHas objBadScore "file" = false ∧
    ∃ r, rateProcess wCand1 objBadScore = Except.ok r ∧ r.score = 0 :=
  ⟨rfl, rfl, rfl, rfl,
    rating_unparseable_score wCand1 objBadScore (Json.str "N/A") rfl rfl rfl rfl
      ⟨some "Good Python", rfl⟩ ⟨some "None", rfl⟩ ⟨some "ok", rfl⟩⟩

/-! ## The intake stage (`parser.py`)

`CVParser.parse`: each document is read by `pdfplumber` (a black box
here: per document, the oracle is either the extracted text or a raised
exception message), and `uuid4()` is modelled as a fresh-id supply
`ids : Nat → String` (the i-th generated id), assumed collision-free on
the run, as a `Nodup` hypothesis.  The thread pool appends results in
completion order; modelled sequentially (all proved properties are
order-free). -/

/-- `os.path.basename`: the suffix after the last `/`. -/
def basename (s : String) : String :=
  String.mk ((s.toList.reverse.takeWhile (fun c => !(c == '/'))).reverse)

structure ParsedCV where
  file : String
  candidate_id : String
  content : String
  error : Bool
deriving DecidableEq, Repr

def dummyCV : ParsedCV :=
  { file := "", candidate_id := "", content := "", error := false }

/-- `CVParser._parse_single_pdf` for the `i`-th document. -/
def parse_single (ids : Nat → String) (i : Nat)
    (doc : String × Except String String) : ParsedCV :=
  match doc.2 with
  | Except.ok text =>
    { file := basename doc.1, candidate_id := ids i, content := text,
      error := false }
  | Except.error e =>
    { file := basename doc.1, candidate_id := ids i,
      content := "Error parsing PDF: " ++ e, error := true }

/-- The enumeration loop of `CVParser.parse`: the `i`-th submitted
document gets the `i`-th generated id. -/
def parseFrom (ids : Nat → String) :
    Nat → List (String × Except String String) → List ParsedCV
  | _, [] => []
  | i, doc :: rest => parse_single ids i doc :: parseFrom ids (i + 1) rest

/-- `CVParser.parse`. -/
def parse (ids : Nat → String) (docs : List (String × Except String String)) :
    List ParsedCV :=
  parseFrom ids 0 docs

theorem parse_single_id (ids : Nat → String) (i : Nat)
    (doc : String × Except String String) :
    (parse_single ids i doc).candidate_id = ids i := by
  unfold parse_single
  split <;> rfl

theorem parseFrom_length (ids : Nat → String) :
    ∀ (k : Nat) (docs : List (String × Except String String)),
      (parseFrom ids k docs).length = docs.length := by
  intro k docs
  induction docs generalizing k with
  | nil => rfl
  | cons doc rest ih => simp [parseFrom, ih]

theorem parseFrom_map_id (ids : Nat → String) :
    ∀ (k : Nat) (docs : List (String × Except String String)),
      List.map (fun cv => cv.candidate_id) (parseFrom ids k docs) =
        List.map ids (List.range' k docs.length) := by
  intro k docs
  induction docs generalizing k with
  | nil => rfl
  | cons doc rest ih =>
    simp only [parseFrom, List.map_cons, List.length_cons, List.range'_succ]
    rw [parse_single_id, ih]

theorem parseFrom_getD (ids : Nat → String) :
    ∀ (k : Nat) (docs : List (String × Except String String)) (i : Nat),
      i < docs.length →
      (parseFrom ids k docs).getD i dummyCV =
        parse_single ids (k + i) (docs.getD i ("", Except.error "")) := by
  intro k docs
  induction docs generalizing k with
  | nil => intro i hi; simp at hi
  | cons doc rest ih =>
    intro i hi
    cases i with
    | zero => rfl
    | succ i =>
      simp only [parseFrom, List.getD_cons_succ]
      rw [ih (k + 1) i (by simpa using hi)]
      congr 1
      omega

/-- C8: Intake identity preservation.  With the uuid supply assumed
collision-free on the run (`Nodup` hypothesis — `uuid4()` gives no
mathematical guarantee, only overwhelming probability), `parse` returns
exactly one record per input document, with pairwise-distinct
candidate ids, and a document whose text extraction raises still yields
a record carrying the diagnostic placeholder text and `error = true`. -/
theorem intake_identity_preservation (ids : Nat → String)
    (docs : List (String × Except String String))
    (hids : (List.map ids (List.range docs.length)).Nodup) :
    (parse ids docs).length = docs.length ∧
    (List.map (fun cv => cv.candidate_id) (parse ids docs)).Nodup ∧
    ∀ i, i < docs.length → ∀ e,
      (docs.getD i ("", Except.error "")).2 = Except.error e →
      (parse ids docs).getD i dummyCV =
        { file := basename (docs.getD i ("", Except.error "")).1,
          candidate_id := ids i,
          content := "Error parsing PDF: " ++ e, error := true } := by
  refine ⟨parseFrom_length ids 0 docs, ?_, ?_⟩
  · rw [parse, parseFrom_map_id ids 0 docs, ← List.range_eq_range']
    exact hids
  · intro i hi e he
    rw [parse, parseFrom_getD ids 0 docs i hi]
    unfold parse_single
    rw [he]
    simp

/-- Concrete documents for the C8 witness: one readable, one corrupt. -/
def wDocs : List (String × Except String String) :=
  [("dir/a.pdf", Except.ok "Alice resume text"),
   ("b.pdf", Except.error "bad xref")]

/-- Concrete fresh-id supply for the C8 witness. -/
def wIds : Nat → String := fun n => if n == 0 then "u0" else "u1"

/-- C8 witness: two documents, the second corrupt — two records with
distinct ids, the second carrying the diagnostic placeholder. -/
theorem intake_identity_preservation_witness :
    (List.map wIds (List.range wDocs.length)).Nodup ∧
      ((parse wIds wDocs).length = wDocs.length ∧
        (List.map (fun cv => cv.candidate_id) (parse wIds wDocs)).Nodup ∧
        ∀ i, i < wDocs.length → ∀ e,
          (wDocs.getD i ("", Except.error "")).2 = Except.error e →
          (parse wIds wDocs).getD i dummyCV =
            { file := basename (wDocs.getD i ("", Except.error "")).1,
              candidate_id := wIds i,
              content := "Error parsing PDF: " ++ e, error := true }) :=
  ⟨by decide, intake_identity_preservation wIds wDocs (by decide)⟩

/-! ## The combiner (`combiner.py`)

`combine` joins the collections into one table.  The pandas DataFrame
is modelled at row level with fixed schemas per branch: `RowJ` for the
judge branch, `RowN` for the no-judge branch, and `RowP` when `ratings`
is empty in the no-judge branch (pandas then produces no rating columns
at all — the empty frame only receives a bare `candidate_id` column
from the `rating_df.empty` fix).  A pandas cell is `Cell`: NaN, a
string, or a number.  `pd.DataFrame([]).drop_duplicates(...)` does not
raise (pandas short-circuits on empty frames before validating the
subset), but `merge` on `candidate_id` with a frame lacking that column
raises `KeyError`: with a non-empty `judge_ratings` and empty `ratings`
the left-merge with the initial-ratings frame raises, and with empty
`infos` the outer merge raises; both are modelled as `Except.error`.
Column renaming to Portuguese is the field naming; dropping the `file`
and `candidate_id` columns is reflected by the row schemas.  The final
sort is by the score column, descending, missing values last
(`sort_values` uses an unstable quicksort; sorted-ness and row
multiset, which the claims are about, are order-of-equals independent;
modelled with insertion sort). -/

inductive Cell where
  | na : Cell
  | s : String → Cell
  | n : Rat → Cell
deriving DecidableEq, Repr

def cellOfOptStr : Option String → Cell
  | none => Cell.na
  | some v => Cell.s v

def cellOfOptRat : Option Rat → Cell
  | none => Cell.na
  | some q => Cell.n q

/-- The profile columns of the output (the `candidate_id` column is
dropped at the end; `file` is kept separately). -/
structure ProfileCols where
  nome : String
  email : String
  telefone : Option String
  idiomas : List String
  linguagens : List String
  frameworks : List String
  anosExperiencia : Option Int
  educacao : Option String
  resumo : Option String
deriving DecidableEq, Repr

def profileCols (c : CandidateInfo) : ProfileCols :=
  { nome := c.name, email := c.email, telefone := c.phone,
    idiomas := c.languages, linguagens := c.programming_languages,
    frameworks := c.frameworks, anosExperiencia := c.years_experience,
    educacao := c.education, resumo := c.summary }

/-- A row of the judge-branch output table. -/
structure RowJ where
  file : Option String
  profile : Option ProfileCols
  pontuacaoFinal : Cell
  pontuacaoInicial : Cell
  pontosFortes : Cell
  pontosFracos : Cell
  justificativa : Cell
  ajuste : Cell
  pontuacaoInicialOriginal : Cell
  pontosFortesOriginal : Cell
  pontosFracosOriginal : Cell
  justificativaOriginal : Cell
deriving DecidableEq, Repr

/-- A row of the no-judge-branch output table. -/
structure RowN where
  file : Option String
  profile : Option ProfileCols
  pontuacaoInicial : Cell
  pontosFortes : Cell
  pontosFracos : Cell
  justificativa : Cell
deriving DecidableEq, Repr

/-- A row when `ratings` is empty and there are no judge ratings: the
table has no rating columns at all. -/
structure RowP where
  file : String
  profile : ProfileCols
deriving DecidableEq, Repr

/-- `drop_duplicates(subset=key, keep='first')`, with an accumulator of
already seen keys (structural form of keep-first deduplication). -/
def dedupBy {α : Type} (key : α → String) : List String → List α → List α
  | _, [] => []
  | seen, x :: xs =>
    if seen.contains (key x) then dedupBy key seen xs
    else x :: dedupBy key (key x :: seen) xs

/-- `rating_df.merge(initial_rating_df, on='candidate_id', how='left')`:
each judge row is paired with every initial rating sharing its
candidate_id, or with nothing. -/
def mergeLeft (jrs : List JudgeRating) (ratings : List CandidateRating) :
    List (JudgeRating × Option CandidateRating) :=
  jrs.flatMap (fun jr =>
    match ratings.filter (fun r => r.candidate_id == jr.candidate_id) with
    | [] => [(jr, none)]
    | ms => ms.map (fun r => (jr, some r)))

/-- The judge-side frame: left-merged with initial ratings, then
deduplicated by candidate_id keeping the first row. -/
def judgeSide (jrs : List JudgeRating) (ratings : List CandidateRating) :
    List (JudgeRating × Option CandidateRating) :=
  dedupBy (fun p => p.1.candidate_id) [] (mergeLeft jrs ratings)

def rowOfMatchJ (c : CandidateInfo)
    (p : JudgeRating × Option CandidateRating) : RowJ :=
  { file := some c.file, profile := some (profileCols c),
    pontuacaoFinal := Cell.n p.1.score,
    pontuacaoInicial := cellOfOptRat p.1.initial_score,
    pontosFortes := cellOfOptStr p.1.strengths,
    pontosFracos := cellOfOptStr p.1.weaknesses,
    justificativa := cellOfOptStr p.1.rationale,
    ajuste := cellOfOptStr p.1.score_adjustment,
    pontuacaoInicialOriginal :=
      match p.2 with | some r => Cell.n r.score | none => Cell.na,
    pontosFortesOriginal :=
      match p.2 with | some r => cellOfOptStr r.strengths | none => Cell.na,
    pontosFracosOriginal :=
      match p.2 with | some r => cellOfOptStr r.weaknesses | none => Cell.na,
    justificativaOriginal :=
      match p.2 with | some r => cellOfOptStr r.rationale | none => Cell.na }

def rowLeftOnlyJ (c : CandidateInfo) : RowJ :=
  { file := some c.file, profile := some (profileCols c),
    pontuacaoFinal := Cell.na, pontuacaoInicial := Cell.na,
    pontosFortes := Cell.na, pontosFracos := Cell.na,
    justificativa := Cell.na, ajuste := Cell.na,
    pontuacaoInicialOriginal := Cell.na, pontosFortesOriginal := Cell.na,
    pontosFracosOriginal := Cell.na, justificativaOriginal := Cell.na }

def rowRightOnlyJ (p : JudgeRating × Option CandidateRating) : RowJ :=
  { file := none, profile := none,
    pontuacaoFinal := Cell.n p.1.score,
    pontuacaoInicial := cellOfOptRat p.1.initial_score,
    pontosFortes := cellOfOptStr p.1.strengths,
    pontosFracos := cellOfOptStr p.1.weaknesses,
    justificativa := cellOfOptStr p.1.rationale,
    ajuste := cellOfOptStr p.1.score_adjustment,
    pontuacaoInicialOriginal :=
      match p.2 with | some r => Cell.n r.score | none => Cell.na,
    pontosFortesOriginal :=
      match p.2 with | some r => cellOfOptStr r.strengths | none => Cell.na,
    pontosFracosOriginal :=
      match p.2 with | some r => cellOfOptStr r.weaknesses | none => Cell.na,
    justificativaOriginal :=
      match p.2 with | some r => cellOfOptStr r.rationale | none => Cell.na }

/-- `info_df.merge(rating_df, on='candidate_id', how='outer')` on
one-to-one (deduplicated) frames: matched and left-only rows in left
order, then unmatched right rows. -/
def outerJoinJ (infosD : List CandidateInfo)
    (js : List (JudgeRating × Option CandidateRating)) : List RowJ :=
  infosD.map (fun c =>
    match js.find? (fun p => p.1.candidate_id == c.candidate_id) with
    | some p => rowOfMatchJ c p
    | none => rowLeftOnlyJ c) ++
  (js.filter (fun p =>
    !(infosD.any (fun c => c.candidate_id == p.1.candidate_id)))).map
    rowRightOnlyJ

/-- `fillna("AUSENTE")` on one cell. -/
def fillCell : Cell → Cell
  | Cell.na => Cell.s "AUSENTE"
  | c => c

/-- The fill loop over the six rating columns (the `... Original`
columns are not in the list and keep their NaNs). -/
def fillRowJ (r : RowJ) : RowJ :=
  { r with pontuacaoFinal := fillCell r.pontuacaoFinal,
           pontuacaoInicial := fillCell r.pontuacaoInicial,
           pontosFortes := fillCell r.pontosFortes,
           pontosFracos := fillCell r.pontosFracos,
           justificativa := fillCell r.justificativa,
           ajuste := fillCell r.ajuste }

/-- `pd.to_numeric(col, errors='coerce')` on one cell. -/
def coerceNum : Cell → Cell
  | Cell.n q => Cell.n q
  | Cell.s v =>
    match parseFloatString v with
    | some q => Cell.n q
    | none => Cell.na
  | Cell.na => Cell.na

def sortPrepJ (r : RowJ) : RowJ :=
  { r with pontuacaoFinal := coerceNum r.pontuacaoFinal }

/-- `y ≤ x` on rationals by cross-multiplication (kernel-reducible). -/
def ratLeB (y x : Rat) : Bool :=
  decide (y.num * (x.den : Int) ≤ x.num * (y.den : Int))

/-- Descending order on score cells, NaN last. -/
def cellDescLe (a b : Cell) : Bool :=
  match a, b with
  | Cell.n x, Cell.n y => ratLeB y x
  | Cell.n _, _ => true
  | _, Cell.n _ => false
  | _, _ => true

def sortJ (rows : List RowJ) : List RowJ :=
  List.insertionSort
    (fun a b => cellDescLe a.pontuacaoFinal b.pontuacaoFinal = true) rows

/-- Round `q` to one decimal digit, as `round(q * 10) : Int`, by
integer arithmetic.  (Python's `"{x:.1f}"` rounds ties to even on the
binary double; this exact-rational half-up rounding agrees on every
claim input.) -/
def roundTenths (q : Rat) : Int :=
  Int.fdiv (20 * q.num + (q.den : Int)) (2 * (q.den : Int))

/-- `f"{x:.1f}".replace('.', ',')`. -/
def formatRat1 (q : Rat) : String :=
  let n := roundTenths q
  (if n < 0 then "-" else "") ++ toString (n.natAbs / 10) ++ "," ++
    toString (n.natAbs % 10)

/-- The final Brazilian formatting of a score cell: numeric (after
`to_numeric` coercion) becomes `d,d`, everything else `"AUSENTE"`. -/
def brFormat (c : Cell) : String :=
  match coerceNum c with
  | Cell.n q => formatRat1 q
  | _ => "AUSENTE"

def formatRowJ (r : RowJ) : RowJ :=
  { r with pontuacaoFinal := Cell.s (brFormat r.pontuacaoFinal),
           pontuacaoInicial := Cell.s (brFormat r.pontuacaoInicial) }

def combineWithJudge (infos : List CandidateInfo)
    (ratings : List CandidateRating) (jrs : List JudgeRating) :
    Except String (List RowJ) :=
  if ratings.isEmpty then
    Except.error "KeyError: candidate_id (left merge with empty ratings frame)"
  else if infos.isEmpty then
    Except.error "KeyError: candidate_id (outer merge with empty info frame)"
  else
    let infosD := dedupBy (fun c => c.candidate_id) [] infos
    let js := judgeSide jrs ratings
    Except.ok
      (List.map formatRowJ
        (sortJ (List.map sortPrepJ (List.map fillRowJ (outerJoinJ infosD js)))))

def rowOfMatchN (c : CandidateInfo) (r : CandidateRating) : RowN :=
  { file := some c.file, profile := some (profileCols c),
    pontuacaoInicial := Cell.n r.score,
    pontosFortes := cellOfOptStr r.strengths,
    pontosFracos := cellOfOptStr r.weaknesses,
    justificativa := cellOfOptStr r.rationale }

def rowLeftOnlyN (c : CandidateInfo) : RowN :=
  { file := some c.file, profile := some (profileCols c),
    pontuacaoInicial := Cell.na, pontosFortes := Cell.na,
    pontosFracos := Cell.na, justificativa := Cell.na }

def rowRightOnlyN (r : CandidateRating) : RowN :=
  { file := none, profile := none,
    pontuacaoInicial := Cell.n r.score,
    pontosFortes := cellOfOptStr r.strengths,
    pontosFracos := cellOfOptStr r.weaknesses,
    justificativa := cellOfOptStr r.rationale }

def outerJoinN (infosD : List CandidateInfo)
    (ratingsD : List CandidateRating) : List RowN :=
  infosD.map (fun c =>
    match ratingsD.find? (fun r => r.candidate_id == c.candidate_id) with
    | some r => rowOfMatchN c r
    | none => rowLeftOnlyN c) ++
  (ratingsD.filter (fun r =>
    !(infosD.any (fun c => c.candidate_id == r.candidate_id)))).map
    rowRightOnlyN

/-- The fill loop in the no-judge branch: of the six listed columns only
these four exist. -/
def fillRowN (r : RowN) : RowN :=
  { r with pontuacaoInicial := fillCell r.pontuacaoInicial,
           pontosFortes := fillCell r.pontosFortes,
           pontosFracos := fillCell r.pontosFracos,
           justificativa := fillCell r.justificativa }

def sortPrepN (r : RowN) : RowN :=
  { r with pontuacaoInicial := coerceNum r.pontuacaoInicial }

def sortN (rows : List RowN) : List RowN :=
  List.insertionSort
    (fun a b => cellDescLe a.pontuacaoInicial b.pontuacaoInicial = true) rows

def formatRowN (r : RowN) : RowN :=
  { r with pontuacaoInicial := Cell.s (brFormat r.pontuacaoInicial) }

/-- The three possible output tables of `combine`. -/
inductive CombineOut where
  | withJudge : List RowJ → CombineOut
  | noJudge : List RowN → CombineOut
  | profilesOnly : List RowP → CombineOut
deriving DecidableEq, Repr

def CombineOut.numRows : CombineOut → Nat
  | CombineOut.withJudge rows => rows.length
  | CombineOut.noJudge rows => rows.length
  | CombineOut.profilesOnly rows => rows.length

def combineNoJudge (infos : List CandidateInfo)
    (ratings : List CandidateRating) : Except String CombineOut :=
  if infos.isEmpty then
    Except.error "KeyError: candidate_id (outer merge with empty info frame)"
  else if ratings.isEmpty then
    Except.ok (CombineOut.profilesOnly
      ((dedupBy (fun c => c.candidate_id) [] infos).map
        (fun c => { file := c.file, profile := profileCols c })))
  else
    let infosD := dedupBy (fun c => c.candidate_id) [] infos
    let ratingsD := dedupBy (fun r => r.candidate_id) [] ratings
    Except.ok (CombineOut.noJudge
      (List.map formatRowN
        (sortN (List.map sortPrepN
          (List.map fillRowN (outerJoinN infosD ratingsD))))))

/-- `combine(infos, ratings, judge_ratings=None)`: the judge branch is
taken exactly when `judge_ratings` is truthy (present and non-empty). -/
def combine (infos : List CandidateInfo) (ratings : List CandidateRating)
    (judge_ratings : Option (List JudgeRating)) : Except String CombineOut :=
  match judge_ratings with
  | some (jr :: jrs) =>
    (combineWithJudge infos ratings (jr :: jrs)).map CombineOut.withJudge
  | _ => combineNoJudge infos ratings

theorem dedupBy_subset {α : Type} (key : α → String) :
    ∀ (seen : List String) (l : List α) (x : α),
      x ∈ dedupBy key seen l → x ∈ l := by
  intro seen l
  induction l generalizing seen with
  | nil => intro x hx; cases hx
  | cons y l ih =>
    intro x hx
    simp only [dedupBy] at hx
    split at hx
    · exact List.mem_cons_of_mem _ (ih seen x hx)
    · cases hx with
      | head => exact List.mem_cons_self _ _
      | tail _ hmem => exact List.mem_cons_of_mem _ (ih _ x hmem)

theorem dedupBy_keys_covered {α : Type} (key : α → String) :
    ∀ (seen : List String) (l : List α) (x : α), x ∈ l →
      seen.contains (key x) = false →
      ∃ y ∈ dedupBy key seen l, key y = key x := by
  intro seen l
  induction l generalizing seen with
  | nil => intro x hx; cases hx
  | cons z l ih =>
    intro x hx hseen
    simp only [dedupBy]
    by_cases hz : seen.contains (key z) = true
    · rw [if_pos hz]
      cases hx with
      | head => rw [hseen] at hz; cases hz
      | tail _ hmem => exact ih seen x hmem hseen
    · rw [if_neg hz]
      by_cases hkey : key x = key z
      · exact ⟨z, List.mem_cons_self _ _, hkey.symm⟩
      · cases hx with
        | head => exact absurd rfl hkey
        | tail _ hmem =>
          obtain ⟨y, hy, hky⟩ := ih (key z :: seen) x hmem
            (by
              simp only [List.contains_cons, Bool.or_eq_false_iff]
              exact ⟨by simpa [beq_eq_false_iff_ne] using hkey, hseen⟩)
          exact ⟨y, List.mem_cons_of_mem _ hy, hky⟩

theorem mergeLeft_fst_mem (jrs : List JudgeRating)
    (ratings : List CandidateRating)
    (p : JudgeRating × Option CandidateRating) (hp : p ∈ mergeLeft jrs ratings) :
    p.1 ∈ jrs := by
  unfold mergeLeft at hp
  obtain ⟨jr, hjr, hmem⟩ := List.mem_flatMap.mp hp
  revert hmem
  split
  · intro hmem
    cases hmem with
    | head => exact hjr
    | tail _ hmem => cases hmem
  · intro hmem
    obtain ⟨r, _, hre⟩ := List.mem_map.mp hmem
    rw [← hre]
    exact hjr

/-- A candidate missing both rating and judge data is marked with the
`"AUSENTE"` sentinel in every rating column of the judge-branch table. -/
def sentinelRowJ (c : CandidateInfo) (row : RowJ) : Prop :=
  row.file = some c.file ∧ row.pontuacaoFinal = Cell.s "AUSENTE" ∧
  row.pontuacaoInicial = Cell.s "AUSENTE" ∧
  row.pontosFortes = Cell.s "AUSENTE" ∧
  row.pontosFracos = Cell.s "AUSENTE" ∧
  row.justificativa = Cell.s "AUSENTE" ∧ row.ajuste = Cell.s "AUSENTE"

/-- The same sentinel marking in the no-judge table. -/
def sentinelRowN (c : CandidateInfo) (row : RowN) : Prop :=
  row.file = some c.file ∧ row.pontuacaoInicial = Cell.s "AUSENTE" ∧
  row.pontosFortes = Cell.s "AUSENTE" ∧
  row.pontosFracos = Cell.s "AUSENTE" ∧ row.justificativa = Cell.s "AUSENTE"

/-- A judge rating with a candidate_id matching no profile. -/
def wForeignJR : JudgeRating :=
  { candidate_id := "zzz", file := "z.pdf", score := 5 }

/-- C7 counterexample: one profile, one rating for it, and one judge
rating whose candidate_id matches no profile — the outer join emits a
row for the unmatched judge entry as well, so `combine` returns 2 rows
for 1 distinct profile candidate_id, refuting "exactly one row per
distinct candidate_id in the profile list" for arbitrary inputs. -/
theorem combine_no_silent_drop_cex :
    (combine [wCand1] [wRat1] (some [wForeignJR])).map CombineOut.numRows =
      Except.ok 2 ∧
    ¬ ((combine [wCand1] [wRat1] (some [wForeignJR])).map CombineOut.numRows =
      Except.ok 1) := by
  refine ⟨rfl, fun h => ?_⟩
  have h2 : (Except.ok 2 : Except String Nat) = Except.ok 1 :=
    (rfl : (combine [wCand1] [wRat1] (some [wForeignJR])).map
      CombineOut.numRows = Except.ok 2).symm.trans h
  exact absurd ((Except.ok.injEq _ _).mp h2) (by decide)

theorem anyKeyMatch (infos : List CandidateInfo) (cid : String)
    (h : cid ∈ List.map (fun c => c.candidate_id) infos) :
    (dedupBy (fun c => c.candidate_id) [] infos).any
      (fun c => c.candidate_id == cid) = true := by
  obtain ⟨c, hc, hce⟩ := List.mem_map.mp h
  obtain ⟨c2, hc2, hk⟩ :=
    dedupBy_keys_covered (fun c => c.candidate_id) [] infos c hc rfl
  exact List.any_eq_true.mpr ⟨c2, hc2, beq_iff_eq.mpr (by rw [hk, hce])⟩

/-- C7 (amended): provided the profile list is non-empty, every
rating/judge candidate_id appears among the profiles', and ratings are
non-empty whenever judge ratings are, `combine` succeeds with exactly
one row per distinct profile candidate_id (dedup keep-first); a
candidate with no judge-side (resp. rating-side) match still appears,
its rating columns filled with the explicit `"AUSENTE"` sentinel; when
ratings are empty and there are no judge ratings, the rows (still one
per distinct profile) carry no rating columns at all.  (Unrestricted
inputs falsify the original claim: a rating-side candidate_id outside
the profiles adds an extra outer-join row, and empty frames make the
pandas merge raise.) -/
theorem combine_no_silent_drop (infos : List CandidateInfo)
    (ratings : List CandidateRating) (jropt : Option (List JudgeRating))
    (hinfos : infos ≠ [])
    (hratings : ∀ l, jropt = some l → l ≠ [] → ratings ≠ [])
    (hjr : ∀ l, jropt = some l → ∀ j ∈ l,
      j.candidate_id ∈ List.map (fun c => c.candidate_id) infos)
    (hrat : ∀ r ∈ ratings,
      r.candidate_id ∈ List.map (fun c => c.candidate_id) infos) :
    ∃ out, combine infos ratings jropt = Except.ok out ∧
      out.numRows = (dedupBy (fun c => c.candidate_id) [] infos).length ∧
      (∀ l, jropt = some l → l ≠ [] →
        ∃ rows, out = CombineOut.withJudge rows ∧
          ∀ c ∈ dedupBy (fun c => c.candidate_id) [] infos,
            (judgeSide l ratings).find?
              (fun p => p.1.candidate_id == c.candidate_id) = none →
            ∃ row ∈ rows, sentinelRowJ c row) ∧
      ((jropt = none ∨ jropt = some []) → ratings ≠ [] →
        ∃ rows, out = CombineOut.noJudge rows ∧
          ∀ c ∈ dedupBy (fun c => c.candidate_id) [] infos,
            (dedupBy (fun r => r.candidate_id) [] ratings).find?
              (fun r => r.candidate_id == c.candidate_id) = none →
            ∃ row ∈ rows, sentinelRowN c row) ∧
      ((jropt = none ∨ jropt = some []) → ratings = [] →
        out = CombineOut.profilesOnly
          ((dedupBy (fun c => c.candidate_id) [] infos).map
            (fun c => { file := c.file, profile := profileCols c }))) := by
  have hinfosne : infos.isEmpty = false := by
    cases infos with
    | nil => exact absurd rfl hinfos
    | cons c cs => rfl
  cases jropt with
  | some l =>
    cases l with
    | cons jr jrs =>
      -- judge branch
      have hrne : ratings ≠ [] := hratings _ rfl (by simp)
      have hrnee : ratings.isEmpty = false := by
        cases ratings with
        | nil => exact absurd rfl hrne
        | cons r rs => rfl
      have hjsub : ∀ p ∈ judgeSide (jr :: jrs) ratings,
          p.1.candidate_id ∈ List.map (fun c => c.candidate_id) infos := by
        intro p hp
        exact hjr _ rfl _ (mergeLeft_fst_mem _ _ p
          (dedupBy_subset _ _ _ p hp))
      have hfilter : (judgeSide (jr :: jrs) ratings).filter
          (fun p => !((dedupBy (fun c => c.candidate_id) [] infos).any
            (fun c => c.candidate_id == p.1.candidate_id))) = [] := by
        rw [List.filter_eq_nil_iff]
        intro p hp
        rw [anyKeyMatch infos p.1.candidate_id (hjsub p hp)]
        simp
      have hcomb : combine infos ratings (some (jr :: jrs)) =
          Except.ok (CombineOut.withJudge
            (List.map formatRowJ (sortJ (List.map sortPrepJ
              (List.map fillRowJ (outerJoinJ
                (dedupBy (fun c => c.candidate_id) [] infos)
                (judgeSide (jr :: jrs) ratings))))))) := by
        simp only [combine]
        unfold combineWithJudge
        rw [hrnee, hinfosne]
        rfl
      refine ⟨_, hcomb, ?_, ?_, ?_, ?_⟩
      · simp only [CombineOut.numRows, sortJ, List.length_map,
          List.length_insertionSort]
        unfold outerJoinJ
        rw [hfilter]
        simp
      · intro l2 hl2 _
        cases hl2
        refine ⟨_, rfl, ?_⟩
        intro c hc hfind
        have h0 : rowLeftOnlyJ c ∈ outerJoinJ
            (dedupBy (fun c => c.candidate_id) [] infos)
            (judgeSide (jr :: jrs) ratings) := by
          apply List.mem_append_left
          exact List.mem_map.mpr ⟨c, hc, by rw [hfind]⟩
        refine ⟨formatRowJ (sortPrepJ (fillRowJ (rowLeftOnlyJ c))), ?_, ?_⟩
        · apply List.mem_map.mpr
          refine ⟨sortPrepJ (fillRowJ (rowLeftOnlyJ c)), ?_, rfl⟩
          unfold sortJ
          rw [List.mem_insertionSort]
          exact List.mem_map.mpr ⟨fillRowJ (rowLeftOnlyJ c),
            List.mem_map.mpr ⟨rowLeftOnlyJ c, h0, rfl⟩, rfl⟩
        · exact ⟨rfl, rfl, rfl, rfl, rfl, rfl, rfl⟩
      · intro hcontra
        cases hcontra with
        | inl hcontra => cases hcontra
        | inr hcontra => cases hcontra
      · intro hcontra
        cases hcontra with
        | inl hcontra => cases hcontra
        | inr hcontra => cases hcontra
    | nil =>
      -- judge_ratings = some []: falsy, no-judge branch
      cases hre : ratings.isEmpty with
      | true =>
        have hrnil : ratings = [] := List.isEmpty_iff.mp hre
        refine ⟨CombineOut.profilesOnly
            ((dedupBy (fun c => c.candidate_id) [] infos).map
              (fun c => { file := c.file, profile := profileCols c })),
          ?_, ?_, ?_, ?_, ?_⟩
        · simp only [combine]
          unfold combineNoJudge
          rw [hinfosne, hre]
          rfl
        · simp [CombineOut.numRows]
        · intro l2 hl2 hne; cases hl2; exact absurd rfl hne
        · intro _ hne; exact absurd hrnil hne
        · intro _ _; rfl
      | false =>
        have hrne : ratings ≠ [] := by
          intro hh; rw [hh] at hre; cases hre
        have hfilter : (dedupBy (fun r => r.candidate_id) [] ratings).filter
            (fun r => !((dedupBy (fun c => c.candidate_id) [] infos).any
              (fun c => c.candidate_id == r.candidate_id))) = [] := by
          rw [List.filter_eq_nil_iff]
          intro r hr
          rw [anyKeyMatch infos r.candidate_id
            (hrat r (dedupBy_subset _ _ _ r hr))]
          simp
        have hcomb : combine infos ratings (some []) =
            Except.ok (CombineOut.noJudge
              (List.map formatRowN (sortN (List.map sortPrepN
                (List.map fillRowN (outerJoinN
                  (dedupBy (fun c => c.candidate_id) [] infos)
                  (dedupBy (fun r => r.candidate_id) [] ratings))))))) := by
          simp only [combine]
          unfold combineNoJudge
          rw [hinfosne, hre]
          rfl
        refine ⟨_, hcomb, ?_, ?_, ?_, ?_⟩
        · simp only [CombineOut.numRows, sortN, List.length_map,
            List.length_insertionSort]
          unfold outerJoinN
          rw [hfilter]
          simp
        · intro l2 hl2 hne; cases hl2; exact absurd rfl hne
        · intro _ _
          refine ⟨_, rfl, ?_⟩
          intro c hc hfind
          have h0 : rowLeftOnlyN c ∈ outerJoinN
              (dedupBy (fun c => c.candidate_id) [] infos)
              (dedupBy (fun r => r.candidate_id) [] ratings) := by
            apply List.mem_append_left
            exact List.mem_map.mpr ⟨c, hc, by rw [hfind]⟩
          refine ⟨formatRowN (sortPrepN (fillRowN (rowLeftOnlyN c))), ?_, ?_⟩
          · apply List.mem_map.mpr
            refine ⟨sortPrepN (fillRowN (rowLeftOnlyN c)), ?_, rfl⟩
            unfold sortN
            rw [List.mem_insertionSort]
            exact List.mem_map.mpr ⟨fillRowN (rowLeftOnlyN c),
              List.mem_map.mpr ⟨rowLeftOnlyN c, h0, rfl⟩, rfl⟩
          · exact ⟨rfl, rfl, rfl, rfl, rfl⟩
        · intro _ hrnil; exact absurd hrnil hrne
  | none =>
    cases hre : ratings.isEmpty with
    | true =>
      have hrnil : ratings = [] := List.isEmpty_iff.mp hre
      refine ⟨CombineOut.profilesOnly
          ((dedupBy (fun c => c.candidate_id) [] infos).map
            (fun c => { file := c.file, profile := profileCols c })),
        ?_, ?_, ?_, ?_, ?_⟩
      · simp only [combine]
        unfold combineNoJudge
        rw [hinfosne, hre]
        rfl
      · simp [CombineOut.numRows]
      · intro l2 hl2 hne; cases hl2
      · intro _ hne; exact absurd hrnil hne
      · intro _ _; rfl
    | false =>
      have hrne : ratings ≠ [] := by
        intro hh; rw [hh] at hre; cases hre
      have hfilter : (dedupBy (fun r => r.candidate_id) [] ratings).filter
          (fun r => !((dedupBy (fun c => c.candidate_id) [] infos).any
            (fun c => c.candidate_id == r.candidate_id))) = [] := by
        rw [List.filter_eq_nil_iff]
        intro r hr
        rw [anyKeyMatch infos r.candidate_id
          (hrat r (dedupBy_subset _ _ _ r hr))]
        simp
      have hcomb : combine infos ratings none =
          Except.ok (CombineOut.noJudge
            (List.map formatRowN (sortN (List.map sortPrepN
              (List.map fillRowN (outerJoinN
                (dedupBy (fun c => c.candidate_id) [] infos)
                (dedupBy (fun r => r.candidate_id) [] ratings))))))) := by
        simp only [combine]
        unfold combineNoJudge
        rw [hinfosne, hre]
        rfl
      refine ⟨_, hcomb, ?_, ?_, ?_, ?_⟩
      · simp only [CombineOut.numRows, sortN, List.length_map,
          List.length_insertionSort]
        unfold outerJoinN
        rw [hfilter]
        simp
      · intro l2 hl2 hne; cases hl2
      · intro _ _
        refine ⟨_, rfl, ?_⟩
        intro c hc hfind
        have h0 : rowLeftOnlyN c ∈ outerJoinN
            (dedupBy (fun c => c.candidate_id) [] infos)
            (dedupBy (fun r => r.candidate_id) [] ratings) := by
          apply List.mem_append_left
          exact List.mem_map.mpr ⟨c, hc, by rw [hfind]⟩
        refine ⟨formatRowN (sortPrepN (fillRowN (rowLeftOnlyN c))), ?_, ?_⟩
        · apply List.mem_map.mpr
          refine ⟨sortPrepN (fillRowN (rowLeftOnlyN c)), ?_, rfl⟩
          unfold sortN
          rw [List.mem_insertionSort]
          exact List.mem_map.mpr ⟨fillRowN (rowLeftOnlyN c),
            List.mem_map.mpr ⟨rowLeftOnlyN c, h0, rfl⟩, rfl⟩
        · exact ⟨rfl, rfl, rfl, rfl, rfl⟩
      · intro _ hrnil; exact absurd hrnil hrne

/-- A judge rating matching the first profile, for the C7 witness. -/
def jrGood7 : JudgeRating :=
  { candidate_id := "id1", file := "a.pdf", score := 8, initial_score := some 7 }

/-- C7 witness: two profiles, one rating and one judge rating (both for
the first profile) — the amended theorem applies: 2 rows, the second
profile's rating columns sentinel-marked. -/
theorem combine_no_silent_drop_witness :
    ([wCand1, wCand2] : List CandidateInfo) ≠ [] ∧
    (∃ out,
      combine [wCand1, wCand2] [wRat1] (some [jrGood7]) = Except.ok out ∧
      out.numRows =
        (dedupBy (fun c => c.candidate_id) [] [wCand1, wCand2]).length ∧
      (∀ l, some [jrGood7] = some l → l ≠ [] →
        ∃ rows, out = CombineOut.withJudge rows ∧
          ∀ c ∈ dedupBy (fun c => c.candidate_id) [] [wCand1, wCand2],
            (judgeSide l [wRat1]).find?
              (fun p => p.1.candidate_id == c.candidate_id) = none →
            ∃ row ∈ rows, sentinelRowJ c row) ∧
      ((some [jrGood7] = none ∨ some [jrGood7] = some []) → [wRat1] ≠ [] →
        ∃ rows, out = CombineOut.noJudge rows ∧
          ∀ c ∈ dedupBy (fun c => c.candidate_id) [] [wCand1, wCand2],
            (dedupBy (fun r => r.candidate_id) [] [wRat1]).find?
              (fun r => r.candidate_id == c.candidate_id) = none →
            ∃ row ∈ rows, sentinelRowN c row) ∧
      ((some [jrGood7] = none ∨ some [jrGood7] = some []) → [wRat1] = [] →
        out = CombineOut.profilesOnly
          ((dedupBy (fun c => c.candidate_id) [] [wCand1, wCand2]).map
            (fun c => { file := c.file, profile := profileCols c })))) :=
  ⟨List.cons_ne_nil _ _,
    combine_no_silent_drop [wCand1, wCand2] [wRat1] (some [jrGood7])
      (List.cons_ne_nil _ _)
      (fun _ _ _ => List.cons_ne_nil _ _)
      (fun l hl => by
        cases hl
        intro j hj
        rw [List.mem_singleton.mp hj]
        decide)
      (fun r hr => by
        rw [List.mem_singleton.mp hr]
        decide)⟩
